import Mathlib

/-!
th-payment-processor: ledger, router and health cache

A shallow embedding of `internal/models/payment.go`, `internal/storage/storage.go`
and `internal/services/payment_service.go`.

Modelling conventions
* A Go `map[K]*V` is a `GoMap K V`: a finite list of key/value pairs with pairwise
  distinct keys.  `m[k] = v` is `GoMap.set`, `v, ok := m[k]` is `GoMap.get`, and
  `for _, v := range m` visits `GoMap.entries` (Go leaves the order unspecified; every
  quantity computed by a range loop below is independent of it).
* Records are stored by pointer in Go, but no record is mutated after it has been
  stored, so the maps hold record values.
* `float64` amounts are rationals and `+` on them is exact: rounding is not modelled.
* `uuid.UUID` is a natural number, `time.Time` an integer instant.
* Everything the service obtains from outside (the generated id, the clock, the answers
  of the two downstream processors) is supplied by a `World`.
* Every `client.Do` performed by `ProcessPayment` is recorded, in order, in a call log.
* `checkProcessorHealth` takes its clock readings and the answer of the probed endpoint
  from a `ProbeWorld`; instants and durations are nanoseconds, and the probes it sends are
  recorded in a probe log.
* A run of the router is a list of `Call`s performed one after the other from a ledger;
  each call comes with the Health Cache contents it finds.
-/

namespace PaymentProcessor

/-! ## Go maps -/

/-- A Go map: key/value pairs with pairwise distinct keys. -/
structure GoMap (K V : Type) where
  entries : List (K × V)
  nodup : (entries.map Prod.fst).Nodup

namespace GoMap

variable {K V : Type} [DecidableEq K]

/-- The map made by `make(map[K]V)`. -/
def empty : GoMap K V := ⟨[], List.nodup_nil⟩

/-- The entries of `l` whose key is not `k`. -/
def dropKey (k : K) (l : List (K × V)) : List (K × V) :=
  l.filter (fun e => decide (e.1 ≠ k))

/-- The lookup `v, ok := m[k]`; `none` stands for `ok = false`. -/
def get (m : GoMap K V) (k : K) : Option V :=
  (m.entries.find? (fun e => decide (e.1 = k))).map Prod.snd

/-- The assignment `m[k] = v`: a binding already present for `k` is replaced. -/
def set (m : GoMap K V) (k : K) (v : V) : GoMap K V :=
  ⟨(k, v) :: dropKey k m.entries, by
    rw [List.map_cons, List.nodup_cons]
    refine ⟨?_, m.nodup.sublist ((List.filter_sublist m.entries).map Prod.fst)⟩
    intro h
    obtain ⟨e, he, hk⟩ := List.mem_map.1 h
    have hne := (List.mem_filter.1 he).2
    simp [hk] at hne⟩

/-- The values stored under key `k` (at most one, the keys being distinct). -/
def valuesAt (m : GoMap K V) (k : K) : List V :=
  (m.entries.filter (fun e => decide (e.1 = k))).map Prod.snd

/-- The number of entries, `len(m)`. -/
def len (m : GoMap K V) : Nat := m.entries.length

/-- The values held by the map. -/
def values (m : GoMap K V) : List V := m.entries.map Prod.snd

end GoMap

/-! ## Data model (`internal/models/payment.go`) -/

abbrev UUID := Nat

abbrev Time := Int

structure PaymentRequest where
  CorrelationID : String
  Amount : ℚ
deriving DecidableEq

structure PaymentRecord where
  ID : UUID
  CorrelationID : String
  Amount : ℚ
  Processor : String
  ProcessedAt : Time
  Success : Bool
deriving DecidableEq

structure ProcessorSummary where
  TotalRequests : Nat
  TotalAmount : ℚ
deriving DecidableEq

structure PaymentSummary where
  Default : ProcessorSummary
  Fallback : ProcessorSummary
deriving DecidableEq

structure ProcessorHealth where
  IsHealthy : Bool
  MinResponseTime : Int
  LastCheck : Time
  Failing : Bool
deriving DecidableEq

/-! ## Ledger (`internal/storage/storage.go`) -/

structure InMemoryStorage where
  payments : GoMap String PaymentRecord
  byID : GoMap UUID PaymentRecord

def NewInMemoryStorage : InMemoryStorage :=
  { payments := GoMap.empty, byID := GoMap.empty }

namespace InMemoryStorage

def StorePayment (s : InMemoryStorage) (record : PaymentRecord) : InMemoryStorage :=
  { payments := s.payments.set record.CorrelationID record
    byID := s.byID.set record.ID record }

def GetPaymentByCorrelationID (s : InMemoryStorage) (correlationID : String) :
    Option PaymentRecord :=
  s.payments.get correlationID

/-- The guard `from != nil && record.ProcessedAt.Before(*from)`. -/
def beforeFrom (fromT : Option Time) (record : PaymentRecord) : Bool :=
  match fromT with
  | none => false
  | some f => decide (record.ProcessedAt < f)

/-- The guard `to != nil && record.ProcessedAt.After(*to)`. -/
def afterTo (toT : Option Time) (record : PaymentRecord) : Bool :=
  match toT with
  | none => false
  | some t => decide (t < record.ProcessedAt)

/-- One iteration of the range loop of `GetPaymentsSummary`. -/
def summaryStep (fromT toT : Option Time) (summary : PaymentSummary) (record : PaymentRecord) :
    PaymentSummary :=
  if beforeFrom fromT record then summary
  else if afterTo toT record then summary
  else if record.Success then
    if record.Processor = "default" then
      { summary with Default :=
          { TotalRequests := summary.Default.TotalRequests + 1
            TotalAmount := summary.Default.TotalAmount + record.Amount } }
    else if record.Processor = "fallback" then
      { summary with Fallback :=
          { TotalRequests := summary.Fallback.TotalRequests + 1
            TotalAmount := summary.Fallback.TotalAmount + record.Amount } }
    else summary
  else summary

def GetPaymentsSummary (s : InMemoryStorage) (fromT toT : Option Time) : PaymentSummary :=
  s.payments.values.foldl (summaryStep fromT toT)
    { Default := { TotalRequests := 0, TotalAmount := 0 }
      Fallback := { TotalRequests := 0, TotalAmount := 0 } }

end InMemoryStorage

/-! ## Router (`internal/services/payment_service.go`) -/

/-- How the HTTP exchange of `processWithProcessor` with one processor ends:
`http.NewRequestWithContext` fails and nothing is sent, or `s.client.Do(httpReq)` returns
an error, or it returns a response with a status code and a body that does or does not
decode as a `PaymentProcessorResponse`. -/
inductive HttpResult where
  | requestError
  | transportError
  | response (status : Nat) (bodyDecodes : Bool)
deriving DecidableEq

/-- The surroundings of one `ProcessPayment` invocation. -/
structure World where
  /-- The value of `uuid.New()`. -/
  newID : UUID
  /-- The value of `time.Now()` when the record is created. -/
  now : Time
  /-- The HTTP exchange with each processor, should it be attempted. -/
  exchange : String → HttpResult

structure PaymentService where
  storage : InMemoryStorage
  defaultHealth : ProcessorHealth
  fallbackHealth : ProcessorHealth
  lastDefaultHealthCheck : Time
  lastFallbackHealthCheck : Time

def StatusOK : Nat := 200

/-- The result of `processWithProcessor`: the returned error, the record as the call left
it, and the processors on which `client.Do` was performed. -/
structure Attempt where
  err : Option String
  record : PaymentRecord
  calls : List String

/-- Translation of `processWithProcessor`.  The request `req` only feeds the payload, whose
effect is part of `w.exchange`; `json.Marshal` of the payload cannot fail for a finite
amount, so that error branch is absent. -/
def processWithProcessor (w : World) (record : PaymentRecord) (processor : String) : Attempt :=
  if processor ≠ "default" ∧ processor ≠ "fallback" then
    { err := some ("unknown processor: " ++ processor), record := record, calls := [] }
  else
    match w.exchange processor with
    | HttpResult.requestError =>
      { err := some "failed to create request", record := record, calls := [] }
    | HttpResult.transportError =>
      { err := some "request failed", record := record, calls := [processor] }
    | HttpResult.response status bodyDecodes =>
      if status ≠ StatusOK then
        { err := some ("processor returned status " ++ toString status), record := record,
          calls := [processor] }
      else if bodyDecodes = false then
        { err := some "failed to decode response", record := record, calls := [processor] }
      else
        { err := none, record := { record with Processor := processor, Success := true },
          calls := [processor] }

namespace PaymentService

def isProcessorHealthy (s : PaymentService) (processor : String) : Bool :=
  if processor = "default" then s.defaultHealth.IsHealthy && !s.defaultHealth.Failing
  else if processor = "fallback" then s.fallbackHealth.IsHealthy && !s.fallbackHealth.Failing
  else false

/-- What `ProcessPayment` returns (record pointer and error), the ledger it leaves, and the
downstream calls it performed, in order. -/
structure Outcome where
  record : Option PaymentRecord
  err : Option String
  storage : InMemoryStorage
  calls : List String

/-- The last part of `ProcessPayment`: "if both fail, mark as failed but still store". -/
def markFailed (s : PaymentService) (record : PaymentRecord) (calls : List String) : Outcome :=
  let record := { record with Processor := "failed" }
  { record := some record, err := some "both payment processors are unavailable",
    storage := s.storage.StorePayment record, calls := calls }

/-- The part of `ProcessPayment` from "try fallback processor" on; `calls` are the calls
performed so far. -/
def tryFallback (s : PaymentService) (w : World) (record : PaymentRecord)
    (calls : List String) : Outcome :=
  if s.isProcessorHealthy "fallback" then
    let a := processWithProcessor w record "fallback"
    if a.err = none then
      { record := some a.record, err := none, storage := s.storage.StorePayment a.record,
        calls := calls ++ a.calls }
    else markFailed s a.record (calls ++ a.calls)
  else markFailed s record calls

/-- The record made under "Create payment record"; `Processor` is the zero value. -/
def newRecord (w : World) (req : PaymentRequest) : PaymentRecord :=
  { ID := w.newID, CorrelationID := req.CorrelationID, Amount := req.Amount,
    Processor := "", ProcessedAt := w.now, Success := false }

/-- The part of `ProcessPayment` that follows a dedup miss. -/
def routeFresh (s : PaymentService) (w : World) (req : PaymentRequest) : Outcome :=
  let record := newRecord w req
  if s.isProcessorHealthy "default" then
    let a := processWithProcessor w record "default"
    if a.err = none then
      { record := some a.record, err := none, storage := s.storage.StorePayment a.record,
        calls := a.calls }
    else tryFallback s w a.record a.calls
  else tryFallback s w record []

def ProcessPayment (s : PaymentService) (w : World) (req : PaymentRequest) : Outcome :=
  match s.storage.GetPaymentByCorrelationID req.CorrelationID with
  | some existing => { record := some existing, err := none, storage := s.storage, calls := [] }
  | none => routeFresh s w req

/-- The service after a `ProcessPayment` invocation: only the ledger has changed. -/
def afterPayment (s : PaymentService) (o : Outcome) : PaymentService :=
  { s with storage := o.storage }

/-- Two `ProcessPayment` invocations on one service, interleaved so that both perform the
dedup lookup before either reaches a `StorePayment`: both lookups read the ledger of `s`;
then the first invocation runs to its end, and the second runs to its end on the ledger
the first one left.  The ledger is accessed only under its lock, by the lookup and by
`StorePayment`; the steps in between (health reads, downstream calls) touch no ledger
state, so where they fall in the interleaving is immaterial. -/
def racePayments (s : PaymentService) (w₁ w₂ : World) (req₁ req₂ : PaymentRequest) :
    Outcome × Outcome :=
  let found₁ := s.storage.GetPaymentByCorrelationID req₁.CorrelationID
  let found₂ := s.storage.GetPaymentByCorrelationID req₂.CorrelationID
  let o₁ : Outcome :=
    match found₁ with
    | some existing =>
      { record := some existing, err := none, storage := s.storage, calls := [] }
    | none => routeFresh s w₁ req₁
  let o₂ : Outcome :=
    match found₂ with
    | some existing =>
      { record := some existing, err := none, storage := o₁.storage, calls := [] }
    | none => routeFresh (s.afterPayment o₁) w₂ req₂
  (o₁, o₂)

end PaymentService

/-! ## Health monitor (`internal/services/payment_service.go`) -/

/-- The zero `time.Time` (January 1, year 1, UTC), in nanoseconds from the Unix epoch: the
value of the two last-check fields of a new service. -/
def zeroTime : Time := -62135596800000000000

/-- The duration `time.Second`, in nanoseconds. -/
def Second : Int := 1000000000

def StatusTooManyRequests : Nat := 429

structure HealthCheckResponse where
  Failing : Bool
  MinResponseTime : Int
deriving DecidableEq

/-- How the HTTP exchange of `checkProcessorHealth` ends: `http.NewRequest` fails and
nothing is sent, or `s.client.Do(req)` returns an error, or it returns a response with a
status code and a body that decodes as a `HealthCheckResponse` or does not. -/
inductive ProbeResult where
  | requestError
  | transportError
  | response (status : Nat) (body : Option HealthCheckResponse)
deriving DecidableEq

/-- The surroundings of one `checkProcessorHealth` invocation: its three clock readings
and the answer of the probed endpoint. -/
structure ProbeWorld where
  /-- The clock read by `time.Since(lastCheck)`. -/
  sinceNow : Time
  /-- The `time.Now()` stored as the processor's last check time. -/
  stampNow : Time
  /-- The `time.Now()` read by `updateProcessorHealth`. -/
  updateNow : Time
  /-- The HTTP exchange with the probed processor, should it be attempted. -/
  probe : ProbeResult

/-- The state `checkProcessorHealth` leaves and the processors on which it performed
`client.Do`. -/
structure ProbeOutcome where
  service : PaymentService
  probes : List String

/-- Translation of `NewPaymentService`; `now₁` and `now₂` are its two `time.Now()`. -/
def NewPaymentService (storage : InMemoryStorage) (now₁ now₂ : Time) : PaymentService :=
  { storage := storage
    defaultHealth :=
      { IsHealthy := true, MinResponseTime := 0, LastCheck := now₁, Failing := false }
    fallbackHealth :=
      { IsHealthy := true, MinResponseTime := 0, LastCheck := now₂, Failing := false }
    lastDefaultHealthCheck := zeroTime
    lastFallbackHealthCheck := zeroTime }

namespace PaymentService

def GetPaymentsSummary (s : PaymentService) (fromT toT : Option Time) : PaymentSummary :=
  s.storage.GetPaymentsSummary fromT toT

/-- Translation of `updateProcessorHealth`; `now` is its `time.Now()`. -/
def updateProcessorHealth (s : PaymentService) (now : Time) (processor : String)
    (isHealthy : Bool) (minResponseTime : Int) (failing : Bool) : PaymentService :=
  if processor = "default" then
    { s with defaultHealth :=
        { s.defaultHealth with
          IsHealthy := isHealthy, MinResponseTime := minResponseTime, Failing := failing,
          LastCheck := now } }
  else if processor = "fallback" then
    { s with fallbackHealth :=
        { s.fallbackHealth with
          IsHealthy := isHealthy, MinResponseTime := minResponseTime, Failing := failing,
          LastCheck := now } }
  else s

/-- The first `switch` of `checkProcessorHealth`: the last check time of the processor,
the zero time for any other name. -/
def lastCheckOf (s : PaymentService) (processor : String) : Time :=
  if processor = "default" then s.lastDefaultHealthCheck
  else if processor = "fallback" then s.lastFallbackHealthCheck
  else zeroTime

/-- The second `switch` of `checkProcessorHealth`: "Update the last check time for this
processor". -/
def stampLastCheck (s : PaymentService) (now : Time) (processor : String) : PaymentService :=
  if processor = "default" then { s with lastDefaultHealthCheck := now }
  else if processor = "fallback" then { s with lastFallbackHealthCheck := now }
  else s

/-- Translation of `checkProcessorHealth`.  `time.Since(lastCheck) < 5*time.Second` is the
comparison of the exact difference with five seconds (the saturation of `time.Duration`
does not change it). -/
def checkProcessorHealth (s : PaymentService) (w : ProbeWorld) (processor : String) :
    ProbeOutcome :=
  if w.sinceNow - s.lastCheckOf processor < 5 * Second then
    { service := s, probes := [] }
  else
    let s := s.stampLastCheck w.stampNow processor
    if processor ≠ "default" ∧ processor ≠ "fallback" then
      { service := s, probes := [] }
    else
      match w.probe with
      | ProbeResult.requestError => { service := s, probes := [] }
      | ProbeResult.transportError =>
        { service := s.updateProcessorHealth w.updateNow processor false 0 true,
          probes := [processor] }
      | ProbeResult.response status body =>
        if status = StatusTooManyRequests then
          { service := s, probes := [processor] }
        else if status ≠ StatusOK then
          { service := s.updateProcessorHealth w.updateNow processor false 0 true,
            probes := [processor] }
        else
          match body with
          | none => { service := s, probes := [processor] }
          | some healthResp =>
            { service := s.updateProcessorHealth w.updateNow processor true
                healthResp.MinResponseTime healthResp.Failing,
              probes := [processor] }

/-- One tick of `StartHealthMonitoring`: `checkProcessorHealth("default")` followed by
`checkProcessorHealth("fallback")`, each in its own surroundings. -/
def monitorTick (s : PaymentService) (wd wf : ProbeWorld) : ProbeOutcome :=
  let o₁ := s.checkProcessorHealth wd "default"
  let o₂ := o₁.service.checkProcessorHealth wf "fallback"
  { service := o₂.service, probes := o₁.probes ++ o₂.probes }

/-- The Health Cache entry of a processor ("default", else "fallback"). -/
def cacheEntry (s : PaymentService) (processor : String) : ProcessorHealth :=
  if processor = "default" then s.defaultHealth else s.fallbackHealth

end PaymentService

/-! ## Runs of the router -/

namespace PaymentService

/-- A record `ProcessPayment` can store for request `req` together with the error `e` it
then returns: the fresh record, ended by a success on one of the two processors or by the
terminal failure. -/
def Terminal (w : World) (req : PaymentRequest) (r : PaymentRecord) (e : Option String) :
    Prop :=
  r.ID = w.newID ∧ r.CorrelationID = req.CorrelationID ∧ r.Amount = req.Amount ∧
  r.ProcessedAt = w.now ∧
  ((e = none ∧ r.Success = true ∧ (r.Processor = "default" ∨ r.Processor = "fallback")) ∨
   (e ≠ none ∧ r.Success = false ∧ r.Processor = "failed"))

instance (w : World) (req : PaymentRequest) (r : PaymentRecord) (e : Option String) :
    Decidable (Terminal w req r e) := by
  unfold Terminal
  infer_instance

end PaymentService

/-- One sequential `ProcessPayment` call: the Health Cache as it stands at the call (the
monitor may have rewritten it since the previous call), the surroundings, the request. -/
structure Call where
  defaultHealth : ProcessorHealth
  fallbackHealth : ProcessorHealth
  world : World
  req : PaymentRequest

/-- The ledger a call leaves when it starts on ledger `st`. -/
def Call.run (c : Call) (st : InMemoryStorage) : InMemoryStorage :=
  (PaymentService.ProcessPayment
    { storage := st, defaultHealth := c.defaultHealth, fallbackHealth := c.fallbackHealth,
      lastDefaultHealthCheck := zeroTime, lastFallbackHealthCheck := zeroTime }
    c.world c.req).storage

/-- The ledger left by a sequence of calls, performed one after the other from `st`. -/
def runCalls (st : InMemoryStorage) : List Call → InMemoryStorage
  | [] => st
  | c :: cs => runCalls (c.run st) cs

/-- The ids generated along a sequence of calls from `st`: `uuid.New()` is reached only by
the calls whose dedup lookup misses. -/
def generatedIDs (st : InMemoryStorage) : List Call → List UUID
  | [] => []
  | c :: cs =>
    match st.GetPaymentByCorrelationID c.req.CorrelationID with
    | some _ => generatedIDs (c.run st) cs
    | none => c.world.newID :: generatedIDs (c.run st) cs

/-- The outcome invariant of a record, with respect to the requests made so far. -/
def RecordOK (reqs : List PaymentRequest) (r : PaymentRecord) : Prop :=
  (r.Processor = "default" ∨ r.Processor = "fallback" ∨ r.Processor = "failed") ∧
  (r.Success = true ↔ (r.Processor = "default" ∨ r.Processor = "fallback")) ∧
  ∃ q ∈ reqs, q.CorrelationID = r.CorrelationID ∧ q.Amount = r.Amount

/-- The two indexes hold the same records: what is found under a correlationId is found
under its id, what is found under an id is found under its correlationId, and the indexes
have the same number of entries. -/
def IndexesAgree (st : InMemoryStorage) : Prop :=
  (∀ k r, st.payments.get k = some r → r.CorrelationID = k ∧ st.byID.get r.ID = some r) ∧
  (∀ i r, st.byID.get i = some r → r.ID = i ∧ st.payments.get r.CorrelationID = some r) ∧
  st.payments.len = st.byID.len

/-- The outcome invariant of a ledger: every record of the correlationId index is stored
under its own correlationId, every record of the id index under its own id, and all satisfy
`RecordOK`. -/
def LedgerOK (reqs : List PaymentRequest) (st : InMemoryStorage) : Prop :=
  (∀ e ∈ st.payments.entries, e.1 = e.2.CorrelationID ∧ RecordOK reqs e.2) ∧
  (∀ e ∈ st.byID.entries, e.1 = e.2.ID ∧ RecordOK reqs e.2)

/-- Three calls from the empty ledger: a success on "default" for "a", a terminal failure
for "b", and a repetition of the first request. -/
def sampleCalls : List Call :=
  [ { defaultHealth := { IsHealthy := true, MinResponseTime := 0, LastCheck := 0, Failing := false }
      fallbackHealth := { IsHealthy := true, MinResponseTime := 0, LastCheck := 0, Failing := false }
      world := { newID := 1, now := 10, exchange := fun _ => HttpResult.response StatusOK true }
      req := { CorrelationID := "a", Amount := 5 } },
    { defaultHealth := { IsHealthy := false, MinResponseTime := 0, LastCheck := 0, Failing := true }
      fallbackHealth := { IsHealthy := true, MinResponseTime := 0, LastCheck := 0, Failing := false }
      world := { newID := 2, now := 20, exchange := fun _ => HttpResult.transportError }
      req := { CorrelationID := "b", Amount := 7 } },
    { defaultHealth := { IsHealthy := true, MinResponseTime := 0, LastCheck := 0, Failing := false }
      fallbackHealth := { IsHealthy := true, MinResponseTime := 0, LastCheck := 0, Failing := false }
      world := { newID := 3, now := 30, exchange := fun _ => HttpResult.response StatusOK true }
      req := { CorrelationID := "a", Amount := 5 } } ]

/-! ## The summary as the specification words it -/

/-- The window of the specification: `from <= processedAt <= to`, both bounds inclusive,
an omitted bound imposing no constraint. -/
def specInWindow (fromT toT : Option Time) (t : Time) : Bool :=
  (match fromT with
    | none => true
    | some f => decide (f ≤ t)) &&
  (match toT with
    | none => true
    | some u => decide (t ≤ u))

/-- The records the specification counts for processor `p`: success, processor `p`,
`processedAt` in the window. -/
def specCounted (p : String) (fromT toT : Option Time) (r : PaymentRecord) : Bool :=
  r.Success && decide (r.Processor = p) && specInWindow fromT toT r.ProcessedAt

/-- The number of stored records counted for `p`. -/
def specTotalRequests (s : InMemoryStorage) (p : String) (fromT toT : Option Time) : Nat :=
  (s.payments.values.filter (specCounted p fromT toT)).length

/-- The exact sum of the amounts of the stored records counted for `p`. -/
def specTotalAmount (s : InMemoryStorage) (p : String) (fromT toT : Option Time) : ℚ :=
  ((s.payments.values.filter (specCounted p fromT toT)).map PaymentRecord.Amount).sum

/-! ## Sample data -/

/-- A cache entry of an eligible processor. -/
def healthyEntry : ProcessorHealth :=
  { IsHealthy := true, MinResponseTime := 0, LastCheck := 0, Failing := false }

/-- A cache entry of a processor that reports itself failing. -/
def failingEntry : ProcessorHealth :=
  { IsHealthy := true, MinResponseTime := 0, LastCheck := 0, Failing := true }

/-- A new service: empty ledger, both processors eligible. -/
def freshService : PaymentService :=
  { storage := NewInMemoryStorage, defaultHealth := healthyEntry,
    fallbackHealth := healthyEntry, lastDefaultHealthCheck := 0, lastFallbackHealthCheck := 0 }

/-- A service with an empty ledger whose default processor is ineligible. -/
def defaultDownService : PaymentService :=
  { freshService with defaultHealth := failingEntry }

/-- Both processors acknowledge. -/
def ackWorld : World :=
  { newID := 7, now := 100, exchange := fun _ => HttpResult.response StatusOK true }

/-- The default processor answers 500, the fallback acknowledges. -/
def defaultErrorWorld : World :=
  { newID := 7, now := 100,
    exchange := fun p =>
      if p = "default" then HttpResult.response 500 false else HttpResult.response StatusOK true }

/-- Neither processor can be reached. -/
def unreachableWorld : World :=
  { newID := 7, now := 100, exchange := fun _ => HttpResult.transportError }

/-- Both processors acknowledge; the generated id is 8. -/
def secondAckWorld : World :=
  { newID := 8, now := 101, exchange := fun _ => HttpResult.response StatusOK true }

def sampleRequest : PaymentRequest := { CorrelationID := "test-123", Amount := 100 }

/-- A terminally failed record. -/
def failedRecord : PaymentRecord :=
  { ID := 1, CorrelationID := "test-123", Amount := 100, Processor := "failed",
    ProcessedAt := 50, Success := false }

/-- A service whose ledger holds `failedRecord`, both processors eligible. -/
def retryService : PaymentService :=
  { freshService with storage := NewInMemoryStorage.StorePayment failedRecord }

/-- A second record for the correlationId of `failedRecord`, under another id. -/
def laterRecord : PaymentRecord :=
  { ID := 2, CorrelationID := "test-123", Amount := 100, Processor := "default",
    ProcessedAt := 60, Success := true }

/-- A ledger with successful records at the instants 10 < 20 < 30 and a failed one at 20. -/
def windowLedger : InMemoryStorage :=
  (((NewInMemoryStorage.StorePayment
    { ID := 1, CorrelationID := "a", Amount := 5, Processor := "default",
      ProcessedAt := 10, Success := true }).StorePayment
    { ID := 2, CorrelationID := "b", Amount := 7, Processor := "default",
      ProcessedAt := 20, Success := true }).StorePayment
    { ID := 3, CorrelationID := "c", Amount := 11, Processor := "default",
      ProcessedAt := 30, Success := true }).StorePayment
    { ID := 4, CorrelationID := "d", Amount := 13, Processor := "failed",
      ProcessedAt := 20, Success := false }

/-- A service as `NewPaymentService` makes it, with an empty ledger. -/
def newService : PaymentService := NewPaymentService NewInMemoryStorage 0 0

/-- A probe at instant 0 answered by OK with `failing = false`, `minResponseTime = 3`. -/
def firstProbe : ProbeWorld :=
  { sinceNow := 0, stampNow := 1, updateNow := 2,
    probe := ProbeResult.response StatusOK (some { Failing := false, MinResponseTime := 3 }) }

/-- A probe half a second later, which would find the processor unreachable. -/
def soonProbe : ProbeWorld :=
  { sinceNow := 500000000, stampNow := 500000001, updateNow := 500000002,
    probe := ProbeResult.transportError }

/-- A probe at instant 0 answered by the rate-limit status. -/
def rateLimitedProbe : ProbeWorld :=
  { sinceNow := 0, stampNow := 1, updateNow := 2,
    probe := ProbeResult.response StatusTooManyRequests none }

/-- A probe at instant 0 answered by status 500. -/
def serverErrorProbe : ProbeWorld :=
  { sinceNow := 0, stampNow := 1, updateNow := 2,
    probe := ProbeResult.response 500 none }

/-! ## Lemmas on Go maps -/

namespace GoMap

variable {K V : Type} [DecidableEq K]

theorem get_set_self (m : GoMap K V) (k : K) (v : V) : (m.set k v).get k = some v := by
  simp [get, set]

theorem find_dropKey (k k' : K) (hne : k' ≠ k) (l : List (K × V)) :
    (dropKey k l).find? (fun e => decide (e.1 = k')) = l.find? (fun e => decide (e.1 = k')) := by
  rw [dropKey, List.find?_filter]
  congr 1
  funext a
  by_cases h : a.1 = k'
  · have h1 : a.1 ≠ k := fun h2 => hne (h.symm.trans h2)
    simp [h, h1, hne]
  · simp [h]

theorem get_set_ne (m : GoMap K V) (k k' : K) (v : V) (hne : k' ≠ k) :
    (m.set k v).get k' = m.get k' := by
  have h : ¬ k = k' := fun h => hne h.symm
  simp [get, set, List.find?_cons, h, find_dropKey k k' hne]

theorem filter_key_of_not_mem (k : K) (l : List (K × V)) (h : k ∉ l.map Prod.fst) :
    l.filter (fun e => decide (e.1 = k)) = [] := by
  rw [List.filter_eq_nil_iff]
  intro e he hk
  exact h (List.mem_map.2 ⟨e, he, by simpa using hk⟩)

theorem filter_key_of_find (k : K) (e : K × V) (l : List (K × V))
    (hnd : (l.map Prod.fst).Nodup) (h : l.find? (fun e => decide (e.1 = k)) = some e) :
    l.filter (fun e => decide (e.1 = k)) = [e] := by
  induction l with
  | nil => simp at h
  | cons a l ih =>
    rw [List.map_cons, List.nodup_cons] at hnd
    by_cases ha : a.1 = k
    · have hae : a = e := by simpa [List.find?_cons, ha] using h
      have hk : k ∉ l.map Prod.fst := ha ▸ hnd.1
      simp [List.filter_cons, ha, hae.symm, filter_key_of_not_mem k l hk]
    · have h2 : l.find? (fun e => decide (e.1 = k)) = some e := by
        simpa [List.find?_cons, ha] using h
      simp [List.filter_cons, ha, ih hnd.2 h2]

theorem valuesAt_of_get (m : GoMap K V) (k : K) (v : V) (h : m.get k = some v) :
    m.valuesAt k = [v] := by
  unfold get at h
  obtain ⟨e, he, hv⟩ := Option.map_eq_some'.1 h
  rw [valuesAt, filter_key_of_find k e m.entries m.nodup he]
  simp [hv]

theorem valuesAt_of_get_none (m : GoMap K V) (k : K) (h : m.get k = none) :
    m.valuesAt k = [] := by
  unfold get at h
  have hf : m.entries.find? (fun e => decide (e.1 = k)) = none := by
    simpa using h
  have : m.entries.filter (fun e => decide (e.1 = k)) = [] := by
    rw [List.filter_eq_nil_iff]
    intro e he
    exact List.find?_eq_none.1 hf e he
  rw [valuesAt, this]
  rfl

theorem mem_values_of_get (m : GoMap K V) (k : K) (v : V) (h : m.get k = some v) :
    v ∈ m.values := by
  unfold get at h
  obtain ⟨e, he, hv⟩ := Option.map_eq_some'.1 h
  exact List.mem_map.2 ⟨e, List.mem_of_find?_eq_some he, hv⟩

theorem values_set (m : GoMap K V) (k : K) (v : V) :
    (m.set k v).values = v :: (dropKey k m.entries).map Prod.snd := rfl

theorem mem_values_of_mem_dropKey (m : GoMap K V) (k : K) (v : V)
    (h : v ∈ (dropKey k m.entries).map Prod.snd) : v ∈ m.values := by
  obtain ⟨e, he, hv⟩ := List.mem_map.1 h
  exact List.mem_map.2 ⟨e, (List.mem_filter.1 he).1, hv⟩

end GoMap

/-! ## Lemmas on the router -/

theorem processWithProcessor_ack (w : World) (record : PaymentRecord) (processor : String)
    (hp : processor = "default" ∨ processor = "fallback")
    (hack : w.exchange processor = HttpResult.response StatusOK true) :
    processWithProcessor w record processor =
      { err := none, record := { record with Processor := processor, Success := true },
        calls := [processor] } := by
  rcases hp with hp | hp <;> subst hp <;> simp [processWithProcessor, hack]

theorem processWithProcessor_record_of_err (w : World) (record : PaymentRecord)
    (processor : String) (h : (processWithProcessor w record processor).err ≠ none) :
    (processWithProcessor w record processor).record = record := by
  unfold processWithProcessor at h ⊢
  split
  · rfl
  · split
    · rfl
    · rfl
    · split
      · rfl
      · split
        · rfl
        · simp_all

theorem processWithProcessor_calls_subset (w : World) (record : PaymentRecord)
    (processor : String) :
    ∀ p ∈ (processWithProcessor w record processor).calls, p = processor := by
  intro p hp
  unfold processWithProcessor at hp
  split at hp
  · simp at hp
  · split at hp
    · simp at hp
    · simpa using hp
    · split at hp
      · simpa using hp
      · split at hp <;> simpa using hp

theorem processWithProcessor_nack (w : World) (record : PaymentRecord) (processor : String)
    (hfail : w.exchange processor ≠ HttpResult.response StatusOK true) :
    (processWithProcessor w record processor).err ≠ none ∧
    (processWithProcessor w record processor).record = record ∧
    (processWithProcessor w record processor).calls =
      (if processor ≠ "default" ∧ processor ≠ "fallback" then []
       else if w.exchange processor = HttpResult.requestError then [] else [processor]) := by
  unfold processWithProcessor
  by_cases hp : processor ≠ "default" ∧ processor ≠ "fallback"
  · simp [hp]
  · rw [if_neg hp, if_neg hp]
    cases hx : w.exchange processor with
    | requestError => simp
    | transportError => simp
    | response status bodyDecodes =>
      by_cases hst : status = StatusOK
      · have hb : bodyDecodes = false := by
          cases bodyDecodes
          · rfl
          · exact absurd (by rw [hx, hst]) hfail
        simp [hst, hb]
      · simp [hst]

namespace PaymentService

theorem ProcessPayment_hit (s : PaymentService) (w : World) (req : PaymentRequest)
    (r : PaymentRecord) (h : s.storage.GetPaymentByCorrelationID req.CorrelationID = some r) :
    s.ProcessPayment w req = { record := some r, err := none, storage := s.storage, calls := [] } := by
  rw [ProcessPayment, h]

theorem ProcessPayment_fresh (s : PaymentService) (w : World) (req : PaymentRequest)
    (h : s.storage.GetPaymentByCorrelationID req.CorrelationID = none) :
    s.ProcessPayment w req = routeFresh s w req := by
  rw [ProcessPayment, h]

theorem stored_lookup (st : InMemoryStorage) (r : PaymentRecord) :
    (st.StorePayment r).GetPaymentByCorrelationID r.CorrelationID = some r := by
  simp [InMemoryStorage.StorePayment, InMemoryStorage.GetPaymentByCorrelationID,
    GoMap.get_set_self]

theorem eligible_iff (h : ProcessorHealth) :
    (h.IsHealthy && !h.Failing) = false ↔ (h.IsHealthy = false ∨ h.Failing = true) := by
  cases h.IsHealthy <;> cases h.Failing <;> simp

theorem tryFallback_fail (s : PaymentService) (w : World) (record : PaymentRecord)
    (calls : List String)
    (h : s.isProcessorHealthy "fallback" = false ∨
      w.exchange "fallback" ≠ HttpResult.response StatusOK true) :
    ∃ cs, tryFallback s w record calls = markFailed s record cs := by
  unfold tryFallback
  by_cases he : s.isProcessorHealthy "fallback" = true
  · have hx : w.exchange "fallback" ≠ HttpResult.response StatusOK true := by
      rcases h with h | h
      · rw [he] at h; exact absurd h (by decide)
      · exact h
    obtain ⟨herr, hrec, _⟩ := processWithProcessor_nack w record "fallback" hx
    exact ⟨calls ++ (processWithProcessor w record "fallback").calls, by
      simp only [he, if_true, if_neg herr, hrec]⟩
  · exact ⟨calls, by simp [he]⟩

theorem routeFresh_fail (s : PaymentService) (w : World) (req : PaymentRequest)
    (hd : s.isProcessorHealthy "default" = false ∨
      w.exchange "default" ≠ HttpResult.response StatusOK true)
    (hf : s.isProcessorHealthy "fallback" = false ∨
      w.exchange "fallback" ≠ HttpResult.response StatusOK true) :
    ∃ cs, routeFresh s w req = markFailed s (newRecord w req) cs := by
  unfold routeFresh
  by_cases he : s.isProcessorHealthy "default" = true
  · have hx : w.exchange "default" ≠ HttpResult.response StatusOK true := by
      rcases hd with h | h
      · rw [he] at h; exact absurd h (by decide)
      · exact h
    obtain ⟨herr, hrec, _⟩ := processWithProcessor_nack w (newRecord w req) "default" hx
    simp only [he, if_true, if_neg herr, hrec]
    exact tryFallback_fail s w _ _ hf
  · simp only [he]
    exact tryFallback_fail s w _ _ hf

theorem processWithProcessor_keys (w : World) (record : PaymentRecord) (processor : String) :
    (processWithProcessor w record processor).record.CorrelationID = record.CorrelationID ∧
    (processWithProcessor w record processor).record.ID = record.ID := by
  unfold processWithProcessor
  split
  · exact ⟨rfl, rfl⟩
  · split
    · exact ⟨rfl, rfl⟩
    · exact ⟨rfl, rfl⟩
    · split
      · exact ⟨rfl, rfl⟩
      · split <;> exact ⟨rfl, rfl⟩

theorem markFailed_shape (s : PaymentService) (record : PaymentRecord) (calls : List String) :
    ∃ r, r.CorrelationID = record.CorrelationID ∧ r.ID = record.ID ∧
      (markFailed s record calls).record = some r ∧
      (markFailed s record calls).storage = s.storage.StorePayment r :=
  ⟨{ record with Processor := "failed" }, rfl, rfl, rfl, rfl⟩

theorem tryFallback_shape (s : PaymentService) (w : World) (record : PaymentRecord)
    (calls : List String) :
    ∃ r, r.CorrelationID = record.CorrelationID ∧ r.ID = record.ID ∧
      (tryFallback s w record calls).record = some r ∧
      (tryFallback s w record calls).storage = s.storage.StorePayment r := by
  unfold tryFallback
  cases he : s.isProcessorHealthy "fallback" with
  | true =>
    by_cases herr : (processWithProcessor w record "fallback").err = none
    · simp only [if_true, herr]
      exact ⟨_, (processWithProcessor_keys w record "fallback").1,
        (processWithProcessor_keys w record "fallback").2, rfl, rfl⟩
    · simp only [if_true, if_neg herr]
      rw [processWithProcessor_record_of_err w record "fallback" herr]
      exact markFailed_shape s record _
  | false =>
    simp only [Bool.false_eq_true, if_false]
    exact markFailed_shape s record _

theorem routeFresh_shape (s : PaymentService) (w : World) (req : PaymentRequest) :
    ∃ r, r.CorrelationID = req.CorrelationID ∧ r.ID = w.newID ∧
      (routeFresh s w req).record = some r ∧
      (routeFresh s w req).storage = s.storage.StorePayment r := by
  unfold routeFresh
  cases he : s.isProcessorHealthy "default" with
  | true =>
    by_cases herr : (processWithProcessor w (newRecord w req) "default").err = none
    · simp only [if_true, herr]
      exact ⟨_, (processWithProcessor_keys w (newRecord w req) "default").1,
        (processWithProcessor_keys w (newRecord w req) "default").2, rfl, rfl⟩
    · simp only [if_true, if_neg herr]
      rw [processWithProcessor_record_of_err w _ "default" herr]
      exact tryFallback_shape s w (newRecord w req) _
  | false =>
    simp only [Bool.false_eq_true, if_false]
    exact tryFallback_shape s w (newRecord w req) _

theorem tryFallback_uniform (s : PaymentService) (w : World) (record : PaymentRecord)
    (calls : List String) :
    ∃ (r : PaymentRecord) (e : Option String) (cs : List String),
      r.CorrelationID = record.CorrelationID ∧ r.ID = record.ID ∧
      ∀ st : InMemoryStorage, tryFallback { s with storage := st } w record calls =
        { record := some r, err := e, storage := st.StorePayment r, calls := cs } := by
  cases he : s.isProcessorHealthy "fallback" with
  | false =>
    refine ⟨{ record with Processor := "failed" },
      some "both payment processors are unavailable", calls, rfl, rfl, fun st => ?_⟩
    have he' : isProcessorHealthy { s with storage := st } "fallback" = false := he
    simp only [tryFallback, he', Bool.false_eq_true, if_false]
    rfl
  | true =>
    by_cases herr : (processWithProcessor w record "fallback").err = none
    · refine ⟨(processWithProcessor w record "fallback").record, none,
        calls ++ (processWithProcessor w record "fallback").calls,
        (processWithProcessor_keys w record "fallback").1,
        (processWithProcessor_keys w record "fallback").2, fun st => ?_⟩
      have he' : isProcessorHealthy { s with storage := st } "fallback" = true := he
      simp only [tryFallback, he', if_true, herr]
    · refine ⟨{ record with Processor := "failed" },
        some "both payment processors are unavailable",
        calls ++ (processWithProcessor w record "fallback").calls, rfl, rfl, fun st => ?_⟩
      have he' : isProcessorHealthy { s with storage := st } "fallback" = true := he
      simp only [tryFallback, he', if_true, if_neg herr]
      rw [processWithProcessor_record_of_err w record "fallback" herr]
      rfl

theorem routeFresh_uniform (s : PaymentService) (w : World) (req : PaymentRequest) :
    ∃ (r : PaymentRecord) (e : Option String) (cs : List String),
      r.CorrelationID = req.CorrelationID ∧ r.ID = w.newID ∧
      ∀ st : InMemoryStorage, routeFresh { s with storage := st } w req =
        { record := some r, err := e, storage := st.StorePayment r, calls := cs } := by
  cases he : s.isProcessorHealthy "default" with
  | false =>
    obtain ⟨r, e, cs, hc, hi, h⟩ := tryFallback_uniform s w (newRecord w req) []
    refine ⟨r, e, cs, hc, hi, fun st => ?_⟩
    have he' : isProcessorHealthy { s with storage := st } "default" = false := he
    simp only [routeFresh, he', Bool.false_eq_true, if_false]
    exact h st
  | true =>
    by_cases herr : (processWithProcessor w (newRecord w req) "default").err = none
    · refine ⟨(processWithProcessor w (newRecord w req) "default").record, none,
        (processWithProcessor w (newRecord w req) "default").calls,
        (processWithProcessor_keys w (newRecord w req) "default").1,
        (processWithProcessor_keys w (newRecord w req) "default").2, fun st => ?_⟩
      have he' : isProcessorHealthy { s with storage := st } "default" = true := he
      simp only [routeFresh, he', if_true, herr]
    · obtain ⟨r, e, cs, hc, hi, h⟩ := tryFallback_uniform s w (newRecord w req)
        (processWithProcessor w (newRecord w req) "default").calls
      refine ⟨r, e, cs, hc, hi, fun st => ?_⟩
      have he' : isProcessorHealthy { s with storage := st } "default" = true := he
      simp only [routeFresh, he', if_true, if_neg herr]
      rw [processWithProcessor_record_of_err w _ "default" herr]
      exact h st

end PaymentService

/-! ## Routing -/

/-- C1: for a request whose correlationId is not in the ledger, with both processors
eligible in the Health Cache and the default processor acknowledging the call,
`ProcessPayment` returns no error, the record stored under the correlationId (which is also
the record returned) has processor "default" and success true, and no call goes to the
fallback processor. -/
theorem C1_default_acknowledged (s : PaymentService) (w : World) (req : PaymentRequest)
    (hfresh : s.storage.GetPaymentByCorrelationID req.CorrelationID = none)
    (hd : s.defaultHealth.IsHealthy = true ∧ s.defaultHealth.Failing = false)
    (_hf : s.fallbackHealth.IsHealthy = true ∧ s.fallbackHealth.Failing = false)
    (hack : w.exchange "default" = HttpResult.response StatusOK true) :
    (s.ProcessPayment w req).err = none ∧
    (∃ r, (s.ProcessPayment w req).storage.GetPaymentByCorrelationID req.CorrelationID = some r ∧
      (s.ProcessPayment w req).record = some r ∧
      r.Processor = "default" ∧ r.Success = true) ∧
    "fallback" ∉ (s.ProcessPayment w req).calls := by
  have ha := fun record => processWithProcessor_ack w record "default" (Or.inl rfl) hack
  rw [PaymentService.ProcessPayment_fresh s w req hfresh]
  simp [PaymentService.routeFresh, PaymentService.newRecord,
    PaymentService.isProcessorHealthy, hd.1, hd.2, ha,
    InMemoryStorage.StorePayment, InMemoryStorage.GetPaymentByCorrelationID,
    GoMap.get_set_self]

theorem C1_default_acknowledged_witness :
    (freshService.ProcessPayment ackWorld sampleRequest).err = none ∧
    (∃ r, (freshService.ProcessPayment ackWorld sampleRequest).storage.GetPaymentByCorrelationID
        sampleRequest.CorrelationID = some r ∧
      (freshService.ProcessPayment ackWorld sampleRequest).record = some r ∧
      r.Processor = "default" ∧ r.Success = true) ∧
    "fallback" ∉ (freshService.ProcessPayment ackWorld sampleRequest).calls :=
  C1_default_acknowledged freshService ackWorld sampleRequest rfl ⟨rfl, rfl⟩ ⟨rfl, rfl⟩ rfl

/-- C2: for a request whose correlationId is not in the ledger, with the default processor
ineligible in the Health Cache (not healthy, or failing), the fallback eligible and
acknowledging the call, `ProcessPayment` performs no call to the default processor, returns
no error, and the stored (and returned) record has processor "fallback" and success true. -/
theorem C2_default_ineligible (s : PaymentService) (w : World) (req : PaymentRequest)
    (hfresh : s.storage.GetPaymentByCorrelationID req.CorrelationID = none)
    (hd : s.defaultHealth.IsHealthy = false ∨ s.defaultHealth.Failing = true)
    (hf : s.fallbackHealth.IsHealthy = true ∧ s.fallbackHealth.Failing = false)
    (hack : w.exchange "fallback" = HttpResult.response StatusOK true) :
    "default" ∉ (s.ProcessPayment w req).calls ∧
    (s.ProcessPayment w req).err = none ∧
    (∃ r, (s.ProcessPayment w req).storage.GetPaymentByCorrelationID req.CorrelationID = some r ∧
      (s.ProcessPayment w req).record = some r ∧
      r.Processor = "fallback" ∧ r.Success = true) := by
  have ha := fun record => processWithProcessor_ack w record "fallback" (Or.inr rfl) hack
  have hdef : s.isProcessorHealthy "default" = false := by
    rcases hd with h | h <;> simp [PaymentService.isProcessorHealthy, h]
  have hfb : s.isProcessorHealthy "fallback" = true := by
    simp [PaymentService.isProcessorHealthy, hf.1, hf.2]
  rw [PaymentService.ProcessPayment_fresh s w req hfresh]
  simp [PaymentService.routeFresh, PaymentService.tryFallback, PaymentService.newRecord,
    hdef, hfb, ha, InMemoryStorage.StorePayment, InMemoryStorage.GetPaymentByCorrelationID,
    GoMap.get_set_self]

theorem C2_default_ineligible_witness :
    "default" ∉ (defaultDownService.ProcessPayment ackWorld sampleRequest).calls ∧
    (defaultDownService.ProcessPayment ackWorld sampleRequest).err = none ∧
    (∃ r, (defaultDownService.ProcessPayment ackWorld
          sampleRequest).storage.GetPaymentByCorrelationID sampleRequest.CorrelationID = some r ∧
      (defaultDownService.ProcessPayment ackWorld sampleRequest).record = some r ∧
      r.Processor = "fallback" ∧ r.Success = true) :=
  C2_default_ineligible defaultDownService ackWorld sampleRequest rfl (Or.inr rfl) ⟨rfl, rfl⟩ rfl

/-- C3: for a request whose correlationId is not in the ledger, with both processors
eligible, the default attempt failing (no acknowledgement: transport error, non-OK status,
undecodable body, or a request that could not be built) and the fallback acknowledging,
`ProcessPayment` returns no error and stores and returns exactly the record a direct
fallback success produces (processor "fallback", success true, nothing left by the failed
default attempt); the call log shows the default call, when one was sent, before the single
fallback call. -/
theorem C3_failover (s : PaymentService) (w : World) (req : PaymentRequest)
    (hfresh : s.storage.GetPaymentByCorrelationID req.CorrelationID = none)
    (hd : s.defaultHealth.IsHealthy = true ∧ s.defaultHealth.Failing = false)
    (hf : s.fallbackHealth.IsHealthy = true ∧ s.fallbackHealth.Failing = false)
    (hfail : w.exchange "default" ≠ HttpResult.response StatusOK true)
    (hack : w.exchange "fallback" = HttpResult.response StatusOK true) :
    (s.ProcessPayment w req).err = none ∧
    (s.ProcessPayment w req).record =
      some { ID := w.newID, CorrelationID := req.CorrelationID, Amount := req.Amount,
             Processor := "fallback", ProcessedAt := w.now, Success := true } ∧
    (s.ProcessPayment w req).storage.GetPaymentByCorrelationID req.CorrelationID =
      (s.ProcessPayment w req).record ∧
    (s.ProcessPayment w req).calls =
      (if w.exchange "default" = HttpResult.requestError then ["fallback"]
       else ["default", "fallback"]) := by
  have ha := fun record => processWithProcessor_ack w record "fallback" (Or.inr rfl) hack
  have hdef : s.isProcessorHealthy "default" = true := by
    simp [PaymentService.isProcessorHealthy, hd.1, hd.2]
  have hfb : s.isProcessorHealthy "fallback" = true := by
    simp [PaymentService.isProcessorHealthy, hf.1, hf.2]
  rw [PaymentService.ProcessPayment_fresh s w req hfresh]
  obtain ⟨herr, hrec, hcalls⟩ :=
    processWithProcessor_nack w (PaymentService.newRecord w req) "default" hfail
  have hstored := PaymentService.stored_lookup s.storage
    { PaymentService.newRecord w req with Processor := "fallback", Success := true }
  simp only [PaymentService.routeFresh, PaymentService.tryFallback, hdef, hfb, if_true,
    if_neg herr, hrec, hcalls, ha]
  simp only [PaymentService.newRecord] at hstored ⊢
  refine ⟨trivial, trivial, hstored, ?_⟩
  by_cases hx : w.exchange "default" = HttpResult.requestError <;> simp [hx]

theorem C3_failover_witness :
    (freshService.ProcessPayment defaultErrorWorld sampleRequest).err = none ∧
    (freshService.ProcessPayment defaultErrorWorld sampleRequest).record =
      some { ID := 7, CorrelationID := "test-123", Amount := 100,
             Processor := "fallback", ProcessedAt := 100, Success := true } ∧
    (freshService.ProcessPayment defaultErrorWorld
        sampleRequest).storage.GetPaymentByCorrelationID "test-123" =
      (freshService.ProcessPayment defaultErrorWorld sampleRequest).record ∧
    (freshService.ProcessPayment defaultErrorWorld sampleRequest).calls =
      (if defaultErrorWorld.exchange "default" = HttpResult.requestError then ["fallback"]
       else ["default", "fallback"]) :=
  C3_failover freshService defaultErrorWorld sampleRequest rfl ⟨rfl, rfl⟩ ⟨rfl, rfl⟩
    (by decide) rfl

/-- C4: for a request whose correlationId is not in the ledger, when each processor is
either ineligible in the Health Cache or fails its downstream call, `ProcessPayment` returns
an error together with a record that has processor "failed" and success false (and the
request's correlationId and amount), and that record is the one stored under the
correlationId. -/
theorem C4_terminal_failure (s : PaymentService) (w : World) (req : PaymentRequest)
    (hfresh : s.storage.GetPaymentByCorrelationID req.CorrelationID = none)
    (hd : (s.defaultHealth.IsHealthy = false ∨ s.defaultHealth.Failing = true) ∨
      w.exchange "default" ≠ HttpResult.response StatusOK true)
    (hf : (s.fallbackHealth.IsHealthy = false ∨ s.fallbackHealth.Failing = true) ∨
      w.exchange "fallback" ≠ HttpResult.response StatusOK true) :
    (s.ProcessPayment w req).err ≠ none ∧
    (s.ProcessPayment w req).record =
      some { ID := w.newID, CorrelationID := req.CorrelationID, Amount := req.Amount,
             Processor := "failed", ProcessedAt := w.now, Success := false } ∧
    (s.ProcessPayment w req).storage.GetPaymentByCorrelationID req.CorrelationID =
      (s.ProcessPayment w req).record := by
  have hd' : s.isProcessorHealthy "default" = false ∨
      w.exchange "default" ≠ HttpResult.response StatusOK true :=
    hd.imp (fun h => by
      simpa [PaymentService.isProcessorHealthy] using
        (PaymentService.eligible_iff s.defaultHealth).2 h) id
  have hf' : s.isProcessorHealthy "fallback" = false ∨
      w.exchange "fallback" ≠ HttpResult.response StatusOK true :=
    hf.imp (fun h => by
      simpa [PaymentService.isProcessorHealthy] using
        (PaymentService.eligible_iff s.fallbackHealth).2 h) id
  obtain ⟨cs, hcs⟩ := PaymentService.routeFresh_fail s w req hd' hf'
  have hstored := PaymentService.stored_lookup s.storage
    { PaymentService.newRecord w req with Processor := "failed" }
  rw [PaymentService.ProcessPayment_fresh s w req hfresh, hcs]
  exact ⟨by simp [PaymentService.markFailed], rfl, hstored⟩

theorem C4_terminal_failure_witness :
    (freshService.ProcessPayment unreachableWorld sampleRequest).err ≠ none ∧
    (freshService.ProcessPayment unreachableWorld sampleRequest).record =
      some { ID := 7, CorrelationID := "test-123", Amount := 100,
             Processor := "failed", ProcessedAt := 100, Success := false } ∧
    (freshService.ProcessPayment unreachableWorld
        sampleRequest).storage.GetPaymentByCorrelationID "test-123" =
      (freshService.ProcessPayment unreachableWorld sampleRequest).record :=
  C4_terminal_failure freshService unreachableWorld sampleRequest rfl
    (Or.inr (by decide)) (Or.inr (by decide))

/-- C6: when the ledger already holds a record under the request's correlationId (whatever
its processor, "failed" included), `ProcessPayment` returns that record with no error,
performs no downstream call whatever the Health Cache holds, and leaves both indexes of the
ledger as they were. -/
theorem C6_dedup_short_circuit (s : PaymentService) (w : World) (req : PaymentRequest)
    (r : PaymentRecord)
    (hhit : s.storage.GetPaymentByCorrelationID req.CorrelationID = some r) :
    (s.ProcessPayment w req).record = some r ∧
    (s.ProcessPayment w req).err = none ∧
    (s.ProcessPayment w req).calls = [] ∧
    (s.ProcessPayment w req).storage = s.storage := by
  rw [PaymentService.ProcessPayment_hit s w req r hhit]
  exact ⟨rfl, rfl, rfl, rfl⟩

theorem C6_dedup_short_circuit_witness :
    (retryService.ProcessPayment ackWorld sampleRequest).record = some failedRecord ∧
    (retryService.ProcessPayment ackWorld sampleRequest).err = none ∧
    (retryService.ProcessPayment ackWorld sampleRequest).calls = [] ∧
    (retryService.ProcessPayment ackWorld sampleRequest).storage = retryService.storage :=
  C6_dedup_short_circuit retryService ackWorld sampleRequest failedRecord
    (PaymentService.stored_lookup NewInMemoryStorage failedRecord)

/-- C5: for every ledger state, request and downstream behaviour (possibly different in
the two calls), two `ProcessPayment` calls in sequence with the same request leave exactly
one record under the correlationId in the correlationId index, and the second call returns,
with no error and no downstream call, the very record the first call returned and left
stored, without changing the ledger.  When the correlationId was new and the id index held
no record of it, the id index too holds exactly one record of it afterwards. -/
theorem C5_sequential_idempotence (s : PaymentService) (w₁ w₂ : World) (req : PaymentRequest) :
    (∃ r, (s.ProcessPayment w₁ req).record = some r ∧
      ((s.afterPayment (s.ProcessPayment w₁ req)).ProcessPayment w₂ req).record = some r ∧
      ((s.afterPayment (s.ProcessPayment w₁ req)).ProcessPayment w₂
        req).storage.GetPaymentByCorrelationID req.CorrelationID = some r ∧
      ((s.afterPayment (s.ProcessPayment w₁ req)).ProcessPayment w₂
        req).storage.payments.valuesAt req.CorrelationID = [r]) ∧
    ((s.afterPayment (s.ProcessPayment w₁ req)).ProcessPayment w₂ req).err = none ∧
    ((s.afterPayment (s.ProcessPayment w₁ req)).ProcessPayment w₂ req).calls = [] ∧
    ((s.afterPayment (s.ProcessPayment w₁ req)).ProcessPayment w₂ req).storage =
      (s.ProcessPayment w₁ req).storage ∧
    (s.storage.GetPaymentByCorrelationID req.CorrelationID = none →
      (∀ r ∈ s.storage.byID.values, r.CorrelationID ≠ req.CorrelationID) →
      (((s.afterPayment (s.ProcessPayment w₁ req)).ProcessPayment w₂
        req).storage.byID.values.filter
          (fun r => decide (r.CorrelationID = req.CorrelationID))).length = 1) := by
  have key : ∃ r, (s.ProcessPayment w₁ req).record = some r ∧
      (s.ProcessPayment w₁ req).storage.GetPaymentByCorrelationID req.CorrelationID = some r ∧
      (s.storage.GetPaymentByCorrelationID req.CorrelationID = none →
        r.CorrelationID = req.CorrelationID ∧
        (s.ProcessPayment w₁ req).storage = s.storage.StorePayment r) := by
    cases hget : s.storage.GetPaymentByCorrelationID req.CorrelationID with
    | some r0 =>
      rw [PaymentService.ProcessPayment_hit s w₁ req r0 hget]
      exact ⟨r0, rfl, hget, fun h => by simp at h⟩
    | none =>
      rw [PaymentService.ProcessPayment_fresh s w₁ req hget]
      obtain ⟨r, hc, _, hrec, hst⟩ := PaymentService.routeFresh_shape s w₁ req
      refine ⟨r, hrec, ?_, fun _ => ⟨hc, hst⟩⟩
      rw [hst, ← hc]
      exact PaymentService.stored_lookup s.storage r
  obtain ⟨r, hrec, hstored, hfresh⟩ := key
  have hsecond := PaymentService.ProcessPayment_hit
    (s.afterPayment (s.ProcessPayment w₁ req)) w₂ req r hstored
  rw [hsecond]
  refine ⟨⟨r, hrec, rfl, hstored, GoMap.valuesAt_of_get _ _ _ hstored⟩, rfl, rfl, rfl, ?_⟩
  intro hnone hby
  obtain ⟨hc, hst⟩ := hfresh hnone
  have hrest : ((GoMap.dropKey r.ID s.storage.byID.entries).map Prod.snd).filter
      (fun x => decide (x.CorrelationID = req.CorrelationID)) = [] := by
    rw [List.filter_eq_nil_iff]
    intro x hx
    have := hby x (GoMap.mem_values_of_mem_dropKey _ _ _ hx)
    simpa using this
  show (((s.ProcessPayment w₁ req).storage.byID.values).filter _).length = 1
  rw [hst]
  simp only [InMemoryStorage.StorePayment, GoMap.values_set]
  rw [List.filter_cons, hrest]
  simp [hc]

theorem C5_sequential_idempotence_witness :
    (((freshService.afterPayment (freshService.ProcessPayment ackWorld
      sampleRequest)).ProcessPayment unreachableWorld sampleRequest).storage.byID.values.filter
        (fun r => decide (r.CorrelationID = sampleRequest.CorrelationID))).length = 1 :=
  (C5_sequential_idempotence freshService ackWorld unreachableWorld sampleRequest).2.2.2.2 rfl
    (fun r hr => absurd hr (List.not_mem_nil r))

/-- C10: `isProcessorHealthy` is `IsHealthy && !Failing` of the cache entry for "default"
and for "fallback" and false for every other name; and `ProcessPayment` performs a
downstream call to a processor only if that processor is eligible in the Health Cache, so a
processor whose entry has `IsHealthy = false` or `Failing = true` is never called. -/
theorem C10_eligibility_gate :
    (∀ s : PaymentService,
      s.isProcessorHealthy "default" = (s.defaultHealth.IsHealthy && !s.defaultHealth.Failing) ∧
      s.isProcessorHealthy "fallback" =
        (s.fallbackHealth.IsHealthy && !s.fallbackHealth.Failing)) ∧
    (∀ (s : PaymentService) (p : String), p ≠ "default" → p ≠ "fallback" →
      s.isProcessorHealthy p = false) ∧
    (∀ (s : PaymentService) (w : World) (req : PaymentRequest) (p : String),
      p ∈ (s.ProcessPayment w req).calls → s.isProcessorHealthy p = true) ∧
    (∀ (s : PaymentService) (w : World) (req : PaymentRequest),
      (s.defaultHealth.IsHealthy = false ∨ s.defaultHealth.Failing = true →
        "default" ∉ (s.ProcessPayment w req).calls) ∧
      (s.fallbackHealth.IsHealthy = false ∨ s.fallbackHealth.Failing = true →
        "fallback" ∉ (s.ProcessPayment w req).calls)) := by
  have hfb : ∀ (s : PaymentService) (w : World) (record : PaymentRecord) (calls : List String)
      (p : String), (∀ q ∈ calls, s.isProcessorHealthy q = true) →
      p ∈ (PaymentService.tryFallback s w record calls).calls →
      s.isProcessorHealthy p = true := by
    intro s w record calls p hcalls hp
    unfold PaymentService.tryFallback at hp
    cases he : s.isProcessorHealthy "fallback" with
    | true =>
      simp only [he, if_true] at hp
      have hp' : p ∈ calls ++ (processWithProcessor w record "fallback").calls := by
        split at hp
        · exact hp
        · exact hp
      rcases List.mem_append.1 hp' with h | h
      · exact hcalls p h
      · rw [processWithProcessor_calls_subset w record "fallback" p h]; exact he
    | false =>
      simp only [he, Bool.false_eq_true, if_false] at hp
      exact hcalls p hp
  have hcalls : ∀ (s : PaymentService) (w : World) (req : PaymentRequest) (p : String),
      p ∈ (s.ProcessPayment w req).calls → s.isProcessorHealthy p = true := by
    intro s w req p hp
    cases hget : s.storage.GetPaymentByCorrelationID req.CorrelationID with
    | some r0 =>
      rw [PaymentService.ProcessPayment_hit s w req r0 hget] at hp
      simp at hp
    | none =>
      rw [PaymentService.ProcessPayment_fresh s w req hget] at hp
      unfold PaymentService.routeFresh at hp
      cases he : s.isProcessorHealthy "default" with
      | true =>
        simp only [he, if_true] at hp
        have hsub : ∀ q ∈ (processWithProcessor w (PaymentService.newRecord w req)
            "default").calls, s.isProcessorHealthy q = true := by
          intro q hq
          rw [processWithProcessor_calls_subset w _ "default" q hq]; exact he
        split at hp
        · exact hsub p hp
        · exact hfb s w _ _ p hsub hp
      | false =>
        simp only [he, Bool.false_eq_true, if_false] at hp
        exact hfb s w _ _ p (fun q hq => by simp at hq) hp
  refine ⟨fun s => ⟨by simp [PaymentService.isProcessorHealthy],
    by simp [PaymentService.isProcessorHealthy]⟩,
    fun s p h1 h2 => by simp [PaymentService.isProcessorHealthy, h1, h2], hcalls, ?_⟩
  intro s w req
  constructor
  · intro h hmem
    have := hcalls s w req "default" hmem
    rw [show s.isProcessorHealthy "default" =
      (s.defaultHealth.IsHealthy && !s.defaultHealth.Failing) by
        simp [PaymentService.isProcessorHealthy]] at this
    rw [(PaymentService.eligible_iff s.defaultHealth).2 h] at this
    exact absurd this (by decide)
  · intro h hmem
    have := hcalls s w req "fallback" hmem
    rw [show s.isProcessorHealthy "fallback" =
      (s.fallbackHealth.IsHealthy && !s.fallbackHealth.Failing) by
        simp [PaymentService.isProcessorHealthy]] at this
    rw [(PaymentService.eligible_iff s.fallbackHealth).2 h] at this
    exact absurd this (by decide)

theorem C10_eligibility_gate_witness :
    "default" ∉ (defaultDownService.ProcessPayment ackWorld sampleRequest).calls :=
  (C10_eligibility_gate.2.2.2 defaultDownService ackWorld sampleRequest).1 (Or.inr rfl)

/-! ## Ledger -/

/-- C7, refuted as stated: the ledger holds `failedRecord` under "test-123"; storing
`laterRecord` (same correlationId, another id) changes the record stored under "test-123",
and the id index then holds two records with that correlationId. -/
theorem C7_first_writer_wins_fails :
    retryService.storage.GetPaymentByCorrelationID "test-123" = some failedRecord ∧
    laterRecord.CorrelationID = "test-123" ∧ laterRecord.ID ≠ failedRecord.ID ∧
    (retryService.storage.StorePayment laterRecord).GetPaymentByCorrelationID "test-123" ≠
      some failedRecord ∧
    ((retryService.storage.StorePayment laterRecord).byID.values.filter
      (fun r => decide (r.CorrelationID = "test-123"))).length = 2 := by
  decide

/-- C7, amended: when the ledger holds a record `r0` under the correlationId of a new
record `r` with another id, `StorePayment r` replaces it (last writer wins): afterwards the
correlationId index holds exactly one record under that correlationId and it is `r`; the id
index holds `r` under its id and is unchanged at every other id, that of `r0` included. -/
theorem C7_last_writer_wins (s : InMemoryStorage) (r0 r : PaymentRecord)
    (_h0 : s.GetPaymentByCorrelationID r.CorrelationID = some r0)
    (hid : r.ID ≠ r0.ID) :
    (s.StorePayment r).GetPaymentByCorrelationID r.CorrelationID = some r ∧
    (s.StorePayment r).payments.valuesAt r.CorrelationID = [r] ∧
    (s.StorePayment r).byID.get r.ID = some r ∧
    (∀ id, id ≠ r.ID → (s.StorePayment r).byID.get id = s.byID.get id) ∧
    (s.StorePayment r).byID.get r0.ID = s.byID.get r0.ID := by
  have h1 := PaymentService.stored_lookup s r
  exact ⟨h1, GoMap.valuesAt_of_get _ _ _ h1, GoMap.get_set_self _ _ _,
    fun id hne => GoMap.get_set_ne _ _ _ _ hne,
    GoMap.get_set_ne _ _ _ _ (fun h => hid h.symm)⟩

theorem C7_last_writer_wins_witness :
    (retryService.storage.StorePayment laterRecord).GetPaymentByCorrelationID
      laterRecord.CorrelationID = some laterRecord ∧
    (retryService.storage.StorePayment laterRecord).payments.valuesAt
      laterRecord.CorrelationID = [laterRecord] ∧
    (retryService.storage.StorePayment laterRecord).byID.get laterRecord.ID =
      some laterRecord ∧
    (∀ id, id ≠ laterRecord.ID →
      (retryService.storage.StorePayment laterRecord).byID.get id =
        retryService.storage.byID.get id) ∧
    (retryService.storage.StorePayment laterRecord).byID.get failedRecord.ID =
      retryService.storage.byID.get failedRecord.ID :=
  C7_last_writer_wins retryService.storage failedRecord laterRecord
    (PaymentService.stored_lookup NewInMemoryStorage failedRecord) (by decide)

/-! ## Concurrent duplicates -/

/-- C8, refuted as stated: on a new service with both processors acknowledging, two
invocations for "test-123" that both pass the dedup lookup before either writes both call
the default processor, return different records (ids 7 and 8), the record returned by the
first is not the one left under "test-123", and the id index holds two records of that
correlationId. -/
theorem C8_concurrent_duplicates_fail :
    freshService.storage.GetPaymentByCorrelationID "test-123" = none ∧
    (freshService.racePayments ackWorld secondAckWorld sampleRequest sampleRequest).1.calls =
      ["default"] ∧
    (freshService.racePayments ackWorld secondAckWorld sampleRequest sampleRequest).2.calls =
      ["default"] ∧
    (freshService.racePayments ackWorld secondAckWorld sampleRequest sampleRequest).1.record ≠
      (freshService.racePayments ackWorld secondAckWorld sampleRequest sampleRequest).2.record ∧
    (freshService.racePayments ackWorld secondAckWorld sampleRequest
      sampleRequest).2.storage.GetPaymentByCorrelationID "test-123" ≠
      (freshService.racePayments ackWorld secondAckWorld sampleRequest sampleRequest).1.record ∧
    ((freshService.racePayments ackWorld secondAckWorld sampleRequest
      sampleRequest).2.storage.byID.values.filter
        (fun r => decide (r.CorrelationID = "test-123"))).length = 2 := by
  decide

/-- C8, amended: when two invocations with the same new correlationId both pass the dedup
lookup before either writes, each runs its candidate sequence as it would alone on the
initial ledger (same downstream calls, same returned record and error); each returns its
own record; afterwards the correlationId index holds exactly one record under the
correlationId, that of the later writer, and the id index holds the later writer's record
under its id and, the two ids being different, the earlier writer's record under its id. -/
theorem C8_race_last_writer_wins (s : PaymentService) (w₁ w₂ : World)
    (req₁ req₂ : PaymentRequest) (hc : req₂.CorrelationID = req₁.CorrelationID)
    (hfresh : s.storage.GetPaymentByCorrelationID req₁.CorrelationID = none) :
    (s.racePayments w₁ w₂ req₁ req₂).1 = s.ProcessPayment w₁ req₁ ∧
    (s.racePayments w₁ w₂ req₁ req₂).2.record = (s.ProcessPayment w₂ req₂).record ∧
    (s.racePayments w₁ w₂ req₁ req₂).2.err = (s.ProcessPayment w₂ req₂).err ∧
    (s.racePayments w₁ w₂ req₁ req₂).2.calls = (s.ProcessPayment w₂ req₂).calls ∧
    (∃ r₁ r₂, (s.racePayments w₁ w₂ req₁ req₂).1.record = some r₁ ∧
      (s.racePayments w₁ w₂ req₁ req₂).2.record = some r₂ ∧
      r₁.ID = w₁.newID ∧ r₂.ID = w₂.newID ∧
      (s.racePayments w₁ w₂ req₁ req₂).2.storage.GetPaymentByCorrelationID
        req₁.CorrelationID = some r₂ ∧
      (s.racePayments w₁ w₂ req₁ req₂).2.storage.payments.valuesAt req₁.CorrelationID = [r₂] ∧
      (s.racePayments w₁ w₂ req₁ req₂).2.storage.byID.get w₂.newID = some r₂ ∧
      (w₁.newID ≠ w₂.newID →
        (s.racePayments w₁ w₂ req₁ req₂).2.storage.byID.get w₁.newID = some r₁)) := by
  have hfresh₂ : s.storage.GetPaymentByCorrelationID req₂.CorrelationID = none := by
    rw [hc]; exact hfresh
  obtain ⟨r₁, e₁, cs₁, _, hi₁, h₁⟩ := PaymentService.routeFresh_uniform s w₁ req₁
  obtain ⟨r₂, e₂, cs₂, hc₂, hi₂, h₂⟩ := PaymentService.routeFresh_uniform s w₂ req₂
  have ha : PaymentService.routeFresh s w₁ req₁ =
      { record := some r₁, err := e₁, storage := s.storage.StorePayment r₁, calls := cs₁ } :=
    h₁ s.storage
  have hb : PaymentService.routeFresh s w₂ req₂ =
      { record := some r₂, err := e₂, storage := s.storage.StorePayment r₂, calls := cs₂ } :=
    h₂ s.storage
  have hrace : s.racePayments w₁ w₂ req₁ req₂ =
      ({ record := some r₁, err := e₁, storage := s.storage.StorePayment r₁, calls := cs₁ },
       { record := some r₂, err := e₂,
         storage := (s.storage.StorePayment r₁).StorePayment r₂, calls := cs₂ }) := by
    simp only [PaymentService.racePayments, hfresh, hfresh₂, ha, PaymentService.afterPayment]
    rw [h₂ (s.storage.StorePayment r₁)]
  have hstored : ((s.storage.StorePayment r₁).StorePayment r₂).GetPaymentByCorrelationID
      req₁.CorrelationID = some r₂ := by
    rw [← hc, ← hc₂]
    exact PaymentService.stored_lookup _ r₂
  rw [hrace, PaymentService.ProcessPayment_fresh s w₁ req₁ hfresh,
    PaymentService.ProcessPayment_fresh s w₂ req₂ hfresh₂, ha, hb]
  refine ⟨rfl, rfl, rfl, rfl, r₁, r₂, rfl, rfl, hi₁, hi₂, hstored,
    GoMap.valuesAt_of_get _ _ _ hstored, ?_, ?_⟩
  · show (((s.storage.StorePayment r₁).StorePayment r₂).byID).get w₂.newID = some r₂
    rw [← hi₂]
    exact GoMap.get_set_self _ _ _
  · intro hne
    show (((s.storage.StorePayment r₁).StorePayment r₂).byID).get w₁.newID = some r₁
    have h1 : ((s.storage.StorePayment r₁).StorePayment r₂).byID.get w₁.newID =
        (s.storage.StorePayment r₁).byID.get w₁.newID :=
      GoMap.get_set_ne _ _ _ _ (by rw [hi₂]; exact hne)
    rw [h1, ← hi₁]
    exact GoMap.get_set_self _ _ _

theorem C8_race_last_writer_wins_witness :
    (freshService.racePayments ackWorld secondAckWorld sampleRequest sampleRequest).1 =
      freshService.ProcessPayment ackWorld sampleRequest ∧
    (freshService.racePayments ackWorld secondAckWorld sampleRequest sampleRequest).2.calls =
      (freshService.ProcessPayment secondAckWorld sampleRequest).calls :=
  ⟨(C8_race_last_writer_wins freshService ackWorld secondAckWorld sampleRequest sampleRequest
      rfl rfl).1,
    (C8_race_last_writer_wins freshService ackWorld secondAckWorld sampleRequest sampleRequest
      rfl rfl).2.2.2.1⟩

/-! ## Summary -/

theorem default_ne_fallback : ("default" : String) ≠ "fallback" := by decide

/-- The contribution of one record to the totals kept for processor `p`. -/
theorem summaryStep_eq (fromT toT : Option Time) (acc : PaymentSummary) (r : PaymentRecord) :
    InMemoryStorage.summaryStep fromT toT acc r =
      { Default :=
          { TotalRequests := acc.Default.TotalRequests +
              (if specCounted "default" fromT toT r then 1 else 0)
            TotalAmount := acc.Default.TotalAmount +
              (if specCounted "default" fromT toT r then r.Amount else 0) }
        Fallback :=
          { TotalRequests := acc.Fallback.TotalRequests +
              (if specCounted "fallback" fromT toT r then 1 else 0)
            TotalAmount := acc.Fallback.TotalAmount +
              (if specCounted "fallback" fromT toT r then r.Amount else 0) } } := by
  have hne := default_ne_fallback
  obtain ⟨⟨dr, da⟩, ⟨fr, fa⟩⟩ := acc
  unfold InMemoryStorage.summaryStep specCounted specInWindow InMemoryStorage.beforeFrom
    InMemoryStorage.afterTo
  simp only [← not_le]
  cases fromT with
  | none =>
    cases toT with
    | none =>
      by_cases hs : r.Success = true <;> by_cases hd : r.Processor = "default" <;>
        by_cases hf : r.Processor = "fallback" <;> simp_all
    | some u =>
      by_cases hu : r.ProcessedAt ≤ u <;> by_cases hs : r.Success = true <;>
        by_cases hd : r.Processor = "default" <;>
        by_cases hf : r.Processor = "fallback" <;> simp_all
  | some f =>
    cases toT with
    | none =>
      by_cases hl : f ≤ r.ProcessedAt <;> by_cases hs : r.Success = true <;>
        by_cases hd : r.Processor = "default" <;>
        by_cases hf : r.Processor = "fallback" <;> simp_all
    | some u =>
      by_cases hl : f ≤ r.ProcessedAt <;> by_cases hu : r.ProcessedAt ≤ u <;>
        by_cases hs : r.Success = true <;> by_cases hd : r.Processor = "default" <;>
        by_cases hf : r.Processor = "fallback" <;> simp_all

theorem foldl_summaryStep (fromT toT : Option Time) (l : List PaymentRecord)
    (acc : PaymentSummary) :
    l.foldl (InMemoryStorage.summaryStep fromT toT) acc =
      { Default :=
          { TotalRequests := acc.Default.TotalRequests +
              (l.filter (specCounted "default" fromT toT)).length
            TotalAmount := acc.Default.TotalAmount +
              ((l.filter (specCounted "default" fromT toT)).map PaymentRecord.Amount).sum }
        Fallback :=
          { TotalRequests := acc.Fallback.TotalRequests +
              (l.filter (specCounted "fallback" fromT toT)).length
            TotalAmount := acc.Fallback.TotalAmount +
              ((l.filter (specCounted "fallback" fromT toT)).map PaymentRecord.Amount).sum } } := by
  induction l generalizing acc with
  | nil => simp
  | cons r l ih =>
    rw [List.foldl_cons, ih, summaryStep_eq]
    by_cases hd : specCounted "default" fromT toT r = true <;>
      by_cases hf : specCounted "fallback" fromT toT r = true <;>
      simp [List.filter_cons, hd, hf, add_assoc, Nat.add_assoc, Nat.add_comm 1]

/-- C9: for every ledger state and optional bounds, `GetPaymentsSummary` returns for
"default" and for "fallback" the number, and the exact sum of the amounts, of the stored
records with success true, that processor, and `from <= processedAt <= to` (both bounds
inclusive, an omitted bound imposing nothing).  In particular, in the loop a record older
than `from`, or newer than `to`, or with success false, leaves the totals as they are,
whereas a successful record dated exactly `from`, or exactly `to`, is counted. -/
theorem C9_summary_definition :
    (∀ (s : InMemoryStorage) (fromT toT : Option Time),
      s.GetPaymentsSummary fromT toT =
        { Default :=
            { TotalRequests := specTotalRequests s "default" fromT toT
              TotalAmount := specTotalAmount s "default" fromT toT }
          Fallback :=
            { TotalRequests := specTotalRequests s "fallback" fromT toT
              TotalAmount := specTotalAmount s "fallback" fromT toT } }) ∧
    (∀ (T2 : Time) (toT : Option Time) (acc : PaymentSummary) (r : PaymentRecord),
      r.ProcessedAt < T2 → InMemoryStorage.summaryStep (some T2) toT acc r = acc) ∧
    (∀ (T2 : Time) (fromT : Option Time) (acc : PaymentSummary) (r : PaymentRecord),
      T2 < r.ProcessedAt → InMemoryStorage.summaryStep fromT (some T2) acc r = acc) ∧
    (∀ (fromT toT : Option Time) (acc : PaymentSummary) (r : PaymentRecord),
      r.Success = false → InMemoryStorage.summaryStep fromT toT acc r = acc) ∧
    (∀ (T2 : Time) (acc : PaymentSummary) (r : PaymentRecord),
      r.ProcessedAt = T2 → r.Success = true → r.Processor = "default" →
      InMemoryStorage.summaryStep (some T2) none acc r =
        { acc with Default :=
            { TotalRequests := acc.Default.TotalRequests + 1
              TotalAmount := acc.Default.TotalAmount + r.Amount } } ∧
      InMemoryStorage.summaryStep none (some T2) acc r =
        { acc with Default :=
            { TotalRequests := acc.Default.TotalRequests + 1
              TotalAmount := acc.Default.TotalAmount + r.Amount } }) ∧
    (∀ (T2 : Time) (acc : PaymentSummary) (r : PaymentRecord),
      r.ProcessedAt = T2 → r.Success = true → r.Processor = "fallback" →
      InMemoryStorage.summaryStep (some T2) none acc r =
        { acc with Fallback :=
            { TotalRequests := acc.Fallback.TotalRequests + 1
              TotalAmount := acc.Fallback.TotalAmount + r.Amount } } ∧
      InMemoryStorage.summaryStep none (some T2) acc r =
        { acc with Fallback :=
            { TotalRequests := acc.Fallback.TotalRequests + 1
              TotalAmount := acc.Fallback.TotalAmount + r.Amount } }) := by
  refine ⟨?_, ?_, ?_, ?_, ?_, ?_⟩
  · intro s fromT toT
    rw [InMemoryStorage.GetPaymentsSummary, foldl_summaryStep]
    simp [specTotalRequests, specTotalAmount]
  · intro T2 toT acc r h
    simp [InMemoryStorage.summaryStep, InMemoryStorage.beforeFrom, h]
  · intro T2 fromT acc r h
    simp [InMemoryStorage.summaryStep, InMemoryStorage.afterTo, h]
  · intro fromT toT acc r h
    simp [InMemoryStorage.summaryStep, h]
  · intro T2 acc r ht hs hp
    simp [InMemoryStorage.summaryStep, InMemoryStorage.beforeFrom, InMemoryStorage.afterTo,
      ht, hs, hp]
  · intro T2 acc r ht hs hp
    simp [InMemoryStorage.summaryStep, InMemoryStorage.beforeFrom, InMemoryStorage.afterTo,
      ht, hs, hp]

/-- On `windowLedger` (successful records at 10 < 20 < 30, a failed one at 20): `from = 20`
leaves out the record at 10 and counts the one at 20, `to = 20` leaves out the record at 30
and counts the one at 20, and the failed record is in neither total. -/
theorem C9_summary_definition_witness :
    windowLedger.GetPaymentsSummary (some 20) none =
      { Default := { TotalRequests := 2, TotalAmount := 18 }
        Fallback := { TotalRequests := 0, TotalAmount := 0 } } ∧
    windowLedger.GetPaymentsSummary none (some 20) =
      { Default := { TotalRequests := 2, TotalAmount := 12 }
        Fallback := { TotalRequests := 0, TotalAmount := 0 } } := by
  rw [C9_summary_definition.1 windowLedger (some 20) none,
    C9_summary_definition.1 windowLedger none (some 20)]
  constructor <;>
    simp [specTotalRequests, specTotalAmount, specCounted, specInWindow, windowLedger,
      NewInMemoryStorage, InMemoryStorage.StorePayment, GoMap.values, GoMap.set, GoMap.empty,
      GoMap.dropKey, List.filter_cons] <;> norm_num

/-! ## Health cache and monitor -/

namespace PaymentService

theorem checkProcessorHealth_skip (s : PaymentService) (w : ProbeWorld) (p : String)
    (h : w.sinceNow - s.lastCheckOf p < 5 * Second) :
    s.checkProcessorHealth w p = { service := s, probes := [] } := by
  rw [checkProcessorHealth, if_pos h]

theorem checkProcessorHealth_allowed (s : PaymentService) (w : ProbeWorld) (p : String)
    (hp : p = "default" ∨ p = "fallback")
    (h : 5 * Second ≤ w.sinceNow - s.lastCheckOf p) :
    s.checkProcessorHealth w p =
      match w.probe with
      | ProbeResult.requestError =>
        { service := s.stampLastCheck w.stampNow p, probes := [] }
      | ProbeResult.transportError =>
        { service := (s.stampLastCheck w.stampNow p).updateProcessorHealth w.updateNow p
            false 0 true,
          probes := [p] }
      | ProbeResult.response status body =>
        if status = StatusTooManyRequests then
          { service := s.stampLastCheck w.stampNow p, probes := [p] }
        else if status ≠ StatusOK then
          { service := (s.stampLastCheck w.stampNow p).updateProcessorHealth w.updateNow p
              false 0 true,
            probes := [p] }
        else
          match body with
          | none => { service := s.stampLastCheck w.stampNow p, probes := [p] }
          | some healthResp =>
            { service := (s.stampLastCheck w.stampNow p).updateProcessorHealth w.updateNow p
                true healthResp.MinResponseTime healthResp.Failing,
              probes := [p] } := by
  have hknown : ¬ (p ≠ "default" ∧ p ≠ "fallback") := by
    rcases hp with h | h <;> simp [h]
  rw [checkProcessorHealth, if_neg (not_lt.2 h)]
  simp only [hknown, if_false]

theorem lastCheckOf_updateProcessorHealth (s : PaymentService) (now : Time) (p q : String)
    (h : Bool) (m : Int) (f : Bool) :
    (s.updateProcessorHealth now p h m f).lastCheckOf q = s.lastCheckOf q := by
  unfold updateProcessorHealth
  split
  · rfl
  · split <;> rfl

theorem health_stampLastCheck (s : PaymentService) (now : Time) (p : String) :
    (s.stampLastCheck now p).defaultHealth = s.defaultHealth ∧
    (s.stampLastCheck now p).fallbackHealth = s.fallbackHealth ∧
    (s.stampLastCheck now p).storage = s.storage := by
  unfold stampLastCheck
  split
  · exact ⟨rfl, rfl, rfl⟩
  · split <;> exact ⟨rfl, rfl, rfl⟩

theorem lastCheckOf_stampLastCheck_self (s : PaymentService) (now : Time) (p : String)
    (hp : p = "default" ∨ p = "fallback") :
    (s.stampLastCheck now p).lastCheckOf p = now := by
  rcases hp with h | h <;> subst h <;> simp [stampLastCheck, lastCheckOf]

theorem lastCheckOf_stampLastCheck_ne (s : PaymentService) (now : Time) (p q : String)
    (hne : q ≠ p) : (s.stampLastCheck now p).lastCheckOf q = s.lastCheckOf q := by
  unfold stampLastCheck lastCheckOf
  by_cases h1 : p = "default"
  · have : q ≠ "default" := fun h => hne (h.trans h1.symm)
    simp [h1, this]
  · by_cases h2 : p = "fallback"
    · have : q ≠ "fallback" := fun h => hne (h.trans h2.symm)
      simp [h1, h2, this]
    · simp [h1, h2]

/-- The last check time a `checkProcessorHealth` invocation leaves for each processor. -/
theorem lastCheckOf_checkProcessorHealth (s : PaymentService) (w : ProbeWorld) (p q : String)
    (hp : p = "default" ∨ p = "fallback") :
    (s.checkProcessorHealth w p).service.lastCheckOf q =
      if 5 * Second ≤ w.sinceNow - s.lastCheckOf p ∧ q = p then w.stampNow
      else s.lastCheckOf q := by
  by_cases h : 5 * Second ≤ w.sinceNow - s.lastCheckOf p
  · have hstamp : (s.stampLastCheck w.stampNow p).lastCheckOf q =
        if q = p then w.stampNow else s.lastCheckOf q := by
      by_cases hq : q = p
      · rw [if_pos hq, hq]; exact lastCheckOf_stampLastCheck_self s _ p hp
      · rw [if_neg hq]; exact lastCheckOf_stampLastCheck_ne s _ p q hq
    rw [checkProcessorHealth_allowed s w p hp h]
    simp only [h, true_and]
    rw [← hstamp]
    cases w.probe with
    | requestError => rfl
    | transportError => exact lastCheckOf_updateProcessorHealth _ _ _ _ _ _ _
    | response status body =>
      by_cases h1 : status = StatusTooManyRequests
      · simp only [h1, if_true]
      · by_cases h2 : status = StatusOK
        · subst h2
          cases body with
          | none => simp only [h1, if_false, ne_eq, not_true]
          | some r =>
            simp only [h1, if_false, ne_eq, not_true]
            exact lastCheckOf_updateProcessorHealth _ _ _ _ _ _ _
        · simp only [h1, h2, if_false, ne_eq, not_false_eq_true, if_true]
          exact lastCheckOf_updateProcessorHealth _ _ _ _ _ _ _
  · rw [checkProcessorHealth_skip s w p (not_le.1 h)]
    simp [h]

end PaymentService

namespace PaymentService

theorem cacheEntry_updateProcessorHealth (s : PaymentService) (now : Time) (p : String)
    (hp : p = "default" ∨ p = "fallback") (h : Bool) (m : Int) (f : Bool) :
    (s.updateProcessorHealth now p h m f).cacheEntry p =
      { IsHealthy := h, MinResponseTime := m, LastCheck := now, Failing := f } := by
  rcases hp with hp | hp <;> subst hp <;> simp [updateProcessorHealth, cacheEntry]

theorem probes_of_allowed (s : PaymentService) (w : ProbeWorld) (p : String)
    (hp : p = "default" ∨ p = "fallback")
    (h : 5 * Second ≤ w.sinceNow - s.lastCheckOf p)
    (hsent : w.probe ≠ ProbeResult.requestError) :
    (s.checkProcessorHealth w p).probes = [p] := by
  rw [checkProcessorHealth_allowed s w p hp h]
  cases hw : w.probe with
  | requestError => exact absurd hw hsent
  | transportError => rfl
  | response status body =>
    by_cases h1 : status = StatusTooManyRequests
    · simp only [h1, if_true]
    · by_cases h2 : status = StatusOK
      · subst h2
        cases body <;> simp only [h1, if_false, ne_eq, not_true]
      · simp only [h1, h2, if_false, ne_eq, not_false_eq_true, if_true]

end PaymentService

/-- C11: a `checkProcessorHealth` invocation for a processor whose last check time is less
than 5 seconds old performs no probe and changes nothing (health entries and last check
times included); in particular this holds for an invocation less than 5 seconds after the
stamp of an invocation that was allowed to probe.  So a second monitor tick within 1 second
of a first tick that was allowed for both processors performs no probe and changes nothing,
the two ticks together probing each processor exactly once.  The floor is per processor:
an invocation for one processor never changes the last check time of the other. -/
theorem C11_probe_rate_limit :
    (∀ (s : PaymentService) (w : ProbeWorld) (p : String),
      w.sinceNow - s.lastCheckOf p < 5 * Second →
      s.checkProcessorHealth w p = { service := s, probes := [] }) ∧
    (∀ (s : PaymentService) (w₀ w : ProbeWorld) (p : String),
      p = "default" ∨ p = "fallback" →
      5 * Second ≤ w₀.sinceNow - s.lastCheckOf p →
      w.sinceNow - w₀.stampNow < 5 * Second →
      (s.checkProcessorHealth w₀ p).service.checkProcessorHealth w p =
        { service := (s.checkProcessorHealth w₀ p).service, probes := [] }) ∧
    (∀ (s : PaymentService) (wd wf wd' wf' : ProbeWorld),
      5 * Second ≤ wd.sinceNow - s.lastDefaultHealthCheck →
      5 * Second ≤ wf.sinceNow - s.lastFallbackHealthCheck →
      wd'.sinceNow - wd.stampNow ≤ Second →
      wf'.sinceNow - wf.stampNow ≤ Second →
      (s.monitorTick wd wf).service.monitorTick wd' wf' =
        { service := (s.monitorTick wd wf).service, probes := [] } ∧
      (wd.probe ≠ ProbeResult.requestError → wf.probe ≠ ProbeResult.requestError →
        (s.monitorTick wd wf).probes = ["default", "fallback"])) ∧
    (∀ (s : PaymentService) (w : ProbeWorld) (p q : String),
      p = "default" ∨ p = "fallback" → q ≠ p →
      (s.checkProcessorHealth w p).service.lastCheckOf q = s.lastCheckOf q) := by
  have hsec : Second < 5 * Second := by decide
  have hafter : ∀ (s : PaymentService) (w₀ : ProbeWorld) (p : String),
      p = "default" ∨ p = "fallback" → 5 * Second ≤ w₀.sinceNow - s.lastCheckOf p →
      (s.checkProcessorHealth w₀ p).service.lastCheckOf p = w₀.stampNow := by
    intro s w₀ p hp h
    rw [PaymentService.lastCheckOf_checkProcessorHealth s w₀ p p hp]
    simp [h]
  have hother : ∀ (s : PaymentService) (w : ProbeWorld) (p q : String),
      p = "default" ∨ p = "fallback" → q ≠ p →
      (s.checkProcessorHealth w p).service.lastCheckOf q = s.lastCheckOf q := by
    intro s w p q hp hq
    rw [PaymentService.lastCheckOf_checkProcessorHealth s w p q hp]
    simp [hq]
  refine ⟨fun s w p h => PaymentService.checkProcessorHealth_skip s w p h, ?_, ?_, hother⟩
  · intro s w₀ w p hp h hsoon
    apply PaymentService.checkProcessorHealth_skip
    rw [hafter s w₀ p hp h]
    exact hsoon
  · intro s wd wf wd' wf' hd hf hd' hf'
    have hfd : ("fallback" : String) ≠ "default" := by decide
    have hdf : ("default" : String) ≠ "fallback" := by decide
    have hd₀ : 5 * Second ≤ wd.sinceNow - s.lastCheckOf "default" := hd
    have h1 : (s.checkProcessorHealth wd "default").service.lastCheckOf "fallback" =
        s.lastFallbackHealthCheck :=
      hother s wd "default" "fallback" (Or.inl rfl) hfd
    have hf₀ : 5 * Second ≤
        wf.sinceNow - (s.checkProcessorHealth wd "default").service.lastCheckOf "fallback" := by
      rw [h1]; exact hf
    have h2 : (s.monitorTick wd wf).service.lastCheckOf "default" = wd.stampNow := by
      show ((s.checkProcessorHealth wd "default").service.checkProcessorHealth wf
        "fallback").service.lastCheckOf "default" = wd.stampNow
      rw [hother _ wf "fallback" "default" (Or.inr rfl) hdf]
      exact hafter s wd "default" (Or.inl rfl) hd₀
    have h3 : (s.monitorTick wd wf).service.lastCheckOf "fallback" = wf.stampNow :=
      hafter _ wf "fallback" (Or.inr rfl) hf₀
    have hskip₁ : (s.monitorTick wd wf).service.checkProcessorHealth wd' "default" =
        { service := (s.monitorTick wd wf).service, probes := [] } := by
      apply PaymentService.checkProcessorHealth_skip
      rw [h2]
      exact lt_of_le_of_lt hd' hsec
    have hskip₂ : (s.monitorTick wd wf).service.checkProcessorHealth wf' "fallback" =
        { service := (s.monitorTick wd wf).service, probes := [] } := by
      apply PaymentService.checkProcessorHealth_skip
      rw [h3]
      exact lt_of_le_of_lt hf' hsec
    constructor
    · rw [PaymentService.monitorTick]
      simp only [hskip₁, hskip₂, List.append_nil]
    · intro hsd hsf
      show (s.checkProcessorHealth wd "default").probes ++
        ((s.checkProcessorHealth wd "default").service.checkProcessorHealth wf
          "fallback").probes = ["default", "fallback"]
      rw [PaymentService.probes_of_allowed s wd "default" (Or.inl rfl) hd₀ hsd,
        PaymentService.probes_of_allowed _ wf "fallback" (Or.inr rfl) hf₀ hsf]
      rfl

/-- On a new service, a tick at instant 0 probes both processors and a tick half a second
later probes none and changes nothing. -/
theorem C11_probe_rate_limit_witness :
    (newService.monitorTick firstProbe firstProbe).service.monitorTick soonProbe soonProbe =
      { service := (newService.monitorTick firstProbe firstProbe).service, probes := [] } ∧
    (newService.monitorTick firstProbe firstProbe).probes = ["default", "fallback"] :=
  ⟨(C11_probe_rate_limit.2.2.1 newService firstProbe firstProbe soonProbe soonProbe
      (by decide) (by decide) (by decide) (by decide)).1,
    (C11_probe_rate_limit.2.2.1 newService firstProbe firstProbe soonProbe soonProbe
      (by decide) (by decide) (by decide) (by decide)).2 (by decide) (by decide)⟩

/-- C12: when an allowed probe of "default" or "fallback" is answered by the rate-limit status
(429), both processors' Health Cache entries (all four fields) are what they were before the
invocation, the probe was sent, and the processor's last check time is the stamp taken by
this invocation. -/
theorem C12_rate_limited_probe (s : PaymentService) (w : ProbeWorld) (p : String)
    (body : Option HealthCheckResponse)
    (hp : p = "default" ∨ p = "fallback")
    (hallowed : 5 * Second ≤ w.sinceNow - s.lastCheckOf p)
    (h429 : w.probe = ProbeResult.response StatusTooManyRequests body) :
    (s.checkProcessorHealth w p).service.defaultHealth = s.defaultHealth ∧
    (s.checkProcessorHealth w p).service.fallbackHealth = s.fallbackHealth ∧
    (s.checkProcessorHealth w p).probes = [p] ∧
    (s.checkProcessorHealth w p).service.lastCheckOf p = w.stampNow := by
  rw [PaymentService.checkProcessorHealth_allowed s w p hp hallowed, h429]
  simp only [if_true]
  exact ⟨(PaymentService.health_stampLastCheck s w.stampNow p).1,
    (PaymentService.health_stampLastCheck s w.stampNow p).2.1, trivial,
    PaymentService.lastCheckOf_stampLastCheck_self s w.stampNow p hp⟩

theorem C12_rate_limited_probe_witness :
    (newService.checkProcessorHealth rateLimitedProbe "default").service.defaultHealth =
      newService.defaultHealth ∧
    (newService.checkProcessorHealth rateLimitedProbe "default").service.fallbackHealth =
      newService.fallbackHealth ∧
    (newService.checkProcessorHealth rateLimitedProbe "default").probes = ["default"] ∧
    (newService.checkProcessorHealth rateLimitedProbe "default").service.lastCheckOf "default" =
      rateLimitedProbe.stampNow :=
  C12_rate_limited_probe newService rateLimitedProbe "default" none (Or.inl rfl)
    (by decide) rfl

/-- C13: for an allowed probe of "default" or "fallback": a transport error, or a status
other than OK and other than the rate-limit status, makes the processor's cache entry
`isHealthy = false, failing = true, minResponseTime = 0`; an OK status with a body decoding
to `failing = f, minResponseTime = m` makes it `isHealthy = true, failing = f,
minResponseTime = m`; in both cases `lastCheck` is the time read at the update. -/
theorem C13_probe_outcome_policy (s : PaymentService) (w : ProbeWorld) (p : String)
    (hp : p = "default" ∨ p = "fallback")
    (hallowed : 5 * Second ≤ w.sinceNow - s.lastCheckOf p) :
    ((w.probe = ProbeResult.transportError ∨
        ∃ status body, w.probe = ProbeResult.response status body ∧
          status ≠ StatusOK ∧ status ≠ StatusTooManyRequests) →
      (s.checkProcessorHealth w p).service.cacheEntry p =
        { IsHealthy := false, MinResponseTime := 0, LastCheck := w.updateNow,
          Failing := true }) ∧
    (∀ (f : Bool) (m : Int),
      w.probe = ProbeResult.response StatusOK (some { Failing := f, MinResponseTime := m }) →
      (s.checkProcessorHealth w p).service.cacheEntry p =
        { IsHealthy := true, MinResponseTime := m, LastCheck := w.updateNow,
          Failing := f }) := by
  rw [PaymentService.checkProcessorHealth_allowed s w p hp hallowed]
  constructor
  · rintro (h | ⟨status, body, h, hok, h429⟩)
    · rw [h]
      exact PaymentService.cacheEntry_updateProcessorHealth _ _ p hp _ _ _
    · rw [h]
      simp only [h429, hok, if_false, ne_eq, not_false_eq_true, if_true]
      exact PaymentService.cacheEntry_updateProcessorHealth _ _ p hp _ _ _
  · intro f m h
    rw [h]
    have hne : ¬ StatusOK = StatusTooManyRequests := by decide
    simp only [hne, if_false, ne_eq, not_true]
    exact PaymentService.cacheEntry_updateProcessorHealth _ _ p hp _ _ _

theorem C13_probe_outcome_policy_witness :
    (newService.checkProcessorHealth serverErrorProbe "fallback").service.cacheEntry "fallback" =
      { IsHealthy := false, MinResponseTime := 0, LastCheck := 2, Failing := true } ∧
    (newService.checkProcessorHealth firstProbe "fallback").service.cacheEntry "fallback" =
      { IsHealthy := true, MinResponseTime := 3, LastCheck := 2, Failing := false } :=
  ⟨(C13_probe_outcome_policy newService serverErrorProbe "fallback" (Or.inr rfl)
      (by decide)).1 (Or.inr ⟨500, none, rfl, by decide, by decide⟩),
    (C13_probe_outcome_policy newService firstProbe "fallback" (Or.inr rfl)
      (by decide)).2 false 3 rfl⟩

/-- C14: on a service just made by `NewPaymentService` over a new (empty) ledger,
`GetPaymentsSummary` returns 0 requests and amount 0 for the default and for the fallback
processor, whatever `from` and `to` are, omitted or not. -/
theorem C14_empty_summary (now₁ now₂ : Time) (fromT toT : Option Time) :
    (NewPaymentService NewInMemoryStorage now₁ now₂).GetPaymentsSummary fromT toT =
      { Default := { TotalRequests := 0, TotalAmount := 0 }
        Fallback := { TotalRequests := 0, TotalAmount := 0 } } := by
  have hvalues : (NewPaymentService NewInMemoryStorage now₁ now₂).storage.payments.values = [] :=
    rfl
  rw [PaymentService.GetPaymentsSummary, InMemoryStorage.GetPaymentsSummary, hvalues,
    List.foldl_nil]

/-- C16: `updateProcessorHealth` with "default" (resp. "fallback") makes that processor's
entry exactly the given `isHealthy`, `minResponseTime` and `failing` (with `lastCheck` the
current time), whatever the entry held before, and leaves the other processor's entry as it
was; with any other name the service, both entries included, is unchanged. -/
theorem C16_update_overwrites :
    (∀ (s : PaymentService) (now : Time) (h : Bool) (m : Int) (f : Bool),
      (s.updateProcessorHealth now "default" h m f).defaultHealth =
        { IsHealthy := h, MinResponseTime := m, LastCheck := now, Failing := f } ∧
      (s.updateProcessorHealth now "default" h m f).fallbackHealth = s.fallbackHealth ∧
      (s.updateProcessorHealth now "fallback" h m f).fallbackHealth =
        { IsHealthy := h, MinResponseTime := m, LastCheck := now, Failing := f } ∧
      (s.updateProcessorHealth now "fallback" h m f).defaultHealth = s.defaultHealth) ∧
    (∀ (s : PaymentService) (now : Time) (p : String) (h : Bool) (m : Int) (f : Bool),
      p ≠ "default" → p ≠ "fallback" → s.updateProcessorHealth now p h m f = s) := by
  refine ⟨fun s now h m f => ⟨?_, ?_, ?_, ?_⟩, fun s now p h m f h1 h2 => ?_⟩
  · simp [PaymentService.updateProcessorHealth]
  · simp [PaymentService.updateProcessorHealth]
  · simp [PaymentService.updateProcessorHealth]
  · simp [PaymentService.updateProcessorHealth]
  · simp [PaymentService.updateProcessorHealth, h1, h2]

theorem C16_update_overwrites_witness :
    newService.updateProcessorHealth 9 "other" false 4 true = newService :=
  C16_update_overwrites.2 newService 9 "other" false 4 true (by decide) (by decide)

/-! ## Effect of a payment on the ledger -/

theorem GoMap.dropKey_of_get_none {K V : Type} [DecidableEq K] (m : GoMap K V) (k : K)
    (h : m.get k = none) : GoMap.dropKey k m.entries = m.entries := by
  unfold GoMap.get at h
  have hf : m.entries.find? (fun e => decide (e.1 = k)) = none := by simpa using h
  rw [GoMap.dropKey, List.filter_eq_self]
  intro e he
  have := List.find?_eq_none.1 hf e he
  simpa using this

theorem processWithProcessor_record_of_ok (w : World) (record : PaymentRecord)
    (processor : String) (h : (processWithProcessor w record processor).err = none) :
    (processWithProcessor w record processor).record =
      { record with Processor := processor, Success := true } := by
  unfold processWithProcessor at h ⊢
  split
  · simp_all
  · split
    · simp_all
    · simp_all
    · split
      · simp_all
      · split
        · simp_all
        · rfl

namespace PaymentService

theorem markFailed_terminal (s : PaymentService) (w : World) (req : PaymentRequest)
    (calls : List String) :
    ∃ r, Terminal w req r (markFailed s (newRecord w req) calls).err ∧
      (markFailed s (newRecord w req) calls).record = some r ∧
      (markFailed s (newRecord w req) calls).storage = s.storage.StorePayment r :=
  ⟨{ newRecord w req with Processor := "failed" },
    ⟨rfl, rfl, rfl, rfl, Or.inr ⟨by simp [markFailed], rfl, rfl⟩⟩, rfl, rfl⟩

theorem tryFallback_terminal (s : PaymentService) (w : World) (req : PaymentRequest)
    (calls : List String) :
    ∃ r, Terminal w req r (tryFallback s w (newRecord w req) calls).err ∧
      (tryFallback s w (newRecord w req) calls).record = some r ∧
      (tryFallback s w (newRecord w req) calls).storage = s.storage.StorePayment r := by
  unfold tryFallback
  cases he : s.isProcessorHealthy "fallback" with
  | true =>
    by_cases herr : (processWithProcessor w (newRecord w req) "fallback").err = none
    · simp only [if_true, herr]
      rw [processWithProcessor_record_of_ok w _ "fallback" herr]
      exact ⟨_, ⟨rfl, rfl, rfl, rfl, Or.inl ⟨rfl, rfl, Or.inr rfl⟩⟩, rfl, rfl⟩
    · simp only [if_true, if_neg herr]
      rw [processWithProcessor_record_of_err w _ "fallback" herr]
      exact markFailed_terminal s w req _
  | false =>
    simp only [Bool.false_eq_true, if_false]
    exact markFailed_terminal s w req _

theorem routeFresh_terminal (s : PaymentService) (w : World) (req : PaymentRequest) :
    ∃ r, Terminal w req r (routeFresh s w req).err ∧
      (routeFresh s w req).record = some r ∧
      (routeFresh s w req).storage = s.storage.StorePayment r := by
  unfold routeFresh
  cases he : s.isProcessorHealthy "default" with
  | true =>
    by_cases herr : (processWithProcessor w (newRecord w req) "default").err = none
    · simp only [if_true, herr]
      rw [processWithProcessor_record_of_ok w _ "default" herr]
      exact ⟨_, ⟨rfl, rfl, rfl, rfl, Or.inl ⟨rfl, rfl, Or.inl rfl⟩⟩, rfl, rfl⟩
    · simp only [if_true, if_neg herr]
      rw [processWithProcessor_record_of_err w _ "default" herr]
      exact tryFallback_terminal s w req _
  | false =>
    simp only [Bool.false_eq_true, if_false]
    exact tryFallback_terminal s w req _

end PaymentService

theorem values_StorePayment_fresh (st : InMemoryStorage) (r : PaymentRecord)
    (h : st.GetPaymentByCorrelationID r.CorrelationID = none) :
    (st.StorePayment r).payments.values = r :: st.payments.values := by
  rw [InMemoryStorage.StorePayment, GoMap.values_set, GoMap.dropKey_of_get_none _ _ h]
  rfl

theorem summary_StorePayment_fresh (st : InMemoryStorage) (r : PaymentRecord)
    (fromT toT : Option Time)
    (h : st.GetPaymentByCorrelationID r.CorrelationID = none) :
    (st.StorePayment r).GetPaymentsSummary fromT toT =
      InMemoryStorage.summaryStep fromT toT (st.GetPaymentsSummary fromT toT) r := by
  rw [InMemoryStorage.GetPaymentsSummary, values_StorePayment_fresh st r h, List.foldl_cons,
    foldl_summaryStep, InMemoryStorage.GetPaymentsSummary, foldl_summaryStep, summaryStep_eq,
    summaryStep_eq]
  simp only [zero_add, Nat.zero_add]
  by_cases hd : specCounted "default" fromT toT r = true <;>
    by_cases hf : specCounted "fallback" fromT toT r = true <;>
    simp [hd, hf, add_comm, Nat.add_comm]

/-- C15: for every ledger state and request, the unbounded summary after `ProcessPayment`
is the one before it, except that a call on a new correlationId that succeeds on "default"
(resp. "fallback") adds exactly 1 to that processor's totalRequests and exactly the
request's amount to its totalAmount and leaves the other processor's totals as they were;
a call on a new correlationId takes one of these two forms or ends in the terminal failure,
which like a dedup hit leaves the summary unchanged. -/
theorem C15_payment_effect_on_summary (s : PaymentService) (w : World) (req : PaymentRequest) :
    (s.storage.GetPaymentByCorrelationID req.CorrelationID ≠ none →
      (s.ProcessPayment w req).storage.GetPaymentsSummary none none =
        s.storage.GetPaymentsSummary none none) ∧
    (s.storage.GetPaymentByCorrelationID req.CorrelationID = none →
      ((s.ProcessPayment w req).err = none ∧
        (s.ProcessPayment w req).record.map PaymentRecord.Processor = some "default" ∧
        (s.ProcessPayment w req).storage.GetPaymentsSummary none none =
          { Default :=
              { TotalRequests := (s.storage.GetPaymentsSummary none none).Default.TotalRequests + 1
                TotalAmount :=
                  (s.storage.GetPaymentsSummary none none).Default.TotalAmount + req.Amount }
            Fallback := (s.storage.GetPaymentsSummary none none).Fallback }) ∨
      ((s.ProcessPayment w req).err = none ∧
        (s.ProcessPayment w req).record.map PaymentRecord.Processor = some "fallback" ∧
        (s.ProcessPayment w req).storage.GetPaymentsSummary none none =
          { Default := (s.storage.GetPaymentsSummary none none).Default
            Fallback :=
              { TotalRequests :=
                  (s.storage.GetPaymentsSummary none none).Fallback.TotalRequests + 1
                TotalAmount :=
                  (s.storage.GetPaymentsSummary none none).Fallback.TotalAmount +
                    req.Amount } }) ∨
      ((s.ProcessPayment w req).err ≠ none ∧
        (s.ProcessPayment w req).record.map PaymentRecord.Processor = some "failed" ∧
        (s.ProcessPayment w req).storage.GetPaymentsSummary none none =
          s.storage.GetPaymentsSummary none none)) := by
  constructor
  · intro hhit
    cases hget : s.storage.GetPaymentByCorrelationID req.CorrelationID with
    | none => exact absurd hget hhit
    | some r0 => rw [PaymentService.ProcessPayment_hit s w req r0 hget]
  · intro hfresh
    rw [PaymentService.ProcessPayment_fresh s w req hfresh]
    obtain ⟨r, ⟨_, hc, ha, _, hcase⟩, hrec, hst⟩ := PaymentService.routeFresh_terminal s w req
    have hfresh' : s.storage.GetPaymentByCorrelationID r.CorrelationID = none := by
      rw [hc]; exact hfresh
    rw [hst, hrec, summary_StorePayment_fresh s.storage r none none hfresh']
    have hdf := default_ne_fallback
    rcases hcase with ⟨he, hs, hp | hp⟩ | ⟨he, hs, hp⟩
    · refine Or.inl ⟨he, by simp [hp], ?_⟩
      simp [InMemoryStorage.summaryStep, InMemoryStorage.beforeFrom, InMemoryStorage.afterTo,
        hs, hp, ha]
    · refine Or.inr (Or.inl ⟨he, by simp [hp], ?_⟩)
      simp [InMemoryStorage.summaryStep, InMemoryStorage.beforeFrom, InMemoryStorage.afterTo,
        hs, hp, ha, hdf.symm]
    · refine Or.inr (Or.inr ⟨he, by simp [hp], ?_⟩)
      simp [InMemoryStorage.summaryStep, InMemoryStorage.beforeFrom, InMemoryStorage.afterTo,
        hs]

/-- On a new service whose default processor acknowledges, a payment of 100 makes the
unbounded summary one request of amount 100 for "default" and nothing for "fallback". -/
theorem C15_payment_effect_on_summary_witness :
    (freshService.ProcessPayment ackWorld sampleRequest).storage.GetPaymentsSummary none none =
      { Default := { TotalRequests := 1, TotalAmount := 100 }
        Fallback := { TotalRequests := 0, TotalAmount := 0 } } := by
  rcases (C15_payment_effect_on_summary freshService ackWorld sampleRequest).2 rfl with
    h | h | h
  · rw [h.2.2]
    simp [freshService, NewInMemoryStorage, InMemoryStorage.GetPaymentsSummary, GoMap.values,
      GoMap.empty, sampleRequest]
  · exact absurd h.2.1 (by decide)
  · exact absurd h.1 (by decide)

/-! ## Invariants of the reachable ledgers -/

theorem Call.run_hit (c : Call) (st : InMemoryStorage) (r : PaymentRecord)
    (h : st.GetPaymentByCorrelationID c.req.CorrelationID = some r) : c.run st = st := by
  unfold Call.run
  rw [PaymentService.ProcessPayment_hit _ c.world c.req r h]

theorem Call.run_fresh (c : Call) (st : InMemoryStorage)
    (h : st.GetPaymentByCorrelationID c.req.CorrelationID = none) :
    ∃ r e, PaymentService.Terminal c.world c.req r e ∧ c.run st = st.StorePayment r := by
  unfold Call.run
  rw [PaymentService.ProcessPayment_fresh _ c.world c.req h]
  obtain ⟨r, ht, _, hst⟩ := PaymentService.routeFresh_terminal
    { storage := st, defaultHealth := c.defaultHealth, fallbackHealth := c.fallbackHealth,
      lastDefaultHealthCheck := zeroTime, lastFallbackHealthCheck := zeroTime } c.world c.req
  exact ⟨r, _, ht, hst⟩

theorem recordOK_mono (reqs more : List PaymentRequest) (r : PaymentRecord)
    (h : RecordOK reqs r) : RecordOK (reqs ++ more) r := by
  obtain ⟨h1, h2, q, hq, h3⟩ := h
  exact ⟨h1, h2, q, List.mem_append_left _ hq, h3⟩

theorem recordOK_of_terminal (reqs : List PaymentRequest) (w : World) (req : PaymentRequest)
    (r : PaymentRecord) (e : Option String) (h : PaymentService.Terminal w req r e) :
    RecordOK (reqs ++ [req]) r := by
  obtain ⟨_, hc, ha, _, hcase⟩ := h
  have hreq : ∃ q ∈ reqs ++ [req], q.CorrelationID = r.CorrelationID ∧ q.Amount = r.Amount :=
    ⟨req, by simp, hc.symm, ha.symm⟩
  rcases hcase with ⟨_, hs, hp | hp⟩ | ⟨_, hs, hp⟩
  · exact ⟨Or.inl hp, by simp [hs, hp], hreq⟩
  · exact ⟨Or.inr (Or.inl hp), by simp [hs, hp], hreq⟩
  · exact ⟨Or.inr (Or.inr hp), by simp [hs, hp], hreq⟩

theorem ledgerOK_call (reqs : List PaymentRequest) (st : InMemoryStorage) (c : Call)
    (h : LedgerOK reqs st) : LedgerOK (reqs ++ [c.req]) (c.run st) := by
  have hmono : LedgerOK (reqs ++ [c.req]) st :=
    ⟨fun e he => ⟨(h.1 e he).1, recordOK_mono reqs _ _ (h.1 e he).2⟩,
     fun e he => ⟨(h.2 e he).1, recordOK_mono reqs _ _ (h.2 e he).2⟩⟩
  cases hget : st.GetPaymentByCorrelationID c.req.CorrelationID with
  | some r0 => rw [Call.run_hit c st r0 hget]; exact hmono
  | none =>
    obtain ⟨r, e, ht, hrun⟩ := Call.run_fresh c st hget
    have hr := recordOK_of_terminal reqs c.world c.req r e ht
    rw [hrun]
    constructor
    · intro x hx
      rcases List.mem_cons.1 hx with hx | hx
      · rw [hx]; exact ⟨rfl, hr⟩
      · exact hmono.1 x (List.mem_filter.1 hx).1
    · intro x hx
      rcases List.mem_cons.1 hx with hx | hx
      · rw [hx]; exact ⟨rfl, hr⟩
      · exact hmono.2 x (List.mem_filter.1 hx).1

theorem ledgerOK_runCalls (cs : List Call) :
    ∀ (reqs : List PaymentRequest) (st : InMemoryStorage), LedgerOK reqs st →
      LedgerOK (reqs ++ cs.map Call.req) (runCalls st cs) := by
  induction cs with
  | nil => intro reqs st h; simpa [runCalls] using h
  | cons c cs ih =>
    intro reqs st h
    have := ih (reqs ++ [c.req]) (c.run st) (ledgerOK_call reqs st c h)
    simpa [runCalls, List.append_assoc] using this

/-- C17: in the ledger reached from the empty ledger by any sequence of `ProcessPayment`
calls, whatever the Health Cache holds at each call and whatever the processors answer,
every stored record (in the correlationId index and in the id index) has processor
"default", "fallback" or "failed", has success true exactly when the processor is "default"
or "fallback", and carries the correlationId and the amount of one of the requests made;
in the correlationId index it is stored under its own correlationId, in the id index under
its own id. -/
theorem C17_outcome_invariant (calls : List Call) :
    (∀ e ∈ (runCalls NewInMemoryStorage calls).payments.entries,
      e.1 = e.2.CorrelationID ∧
      (e.2.Processor = "default" ∨ e.2.Processor = "fallback" ∨ e.2.Processor = "failed") ∧
      (e.2.Success = true ↔ (e.2.Processor = "default" ∨ e.2.Processor = "fallback")) ∧
      ∃ c ∈ calls, c.req.CorrelationID = e.2.CorrelationID ∧ c.req.Amount = e.2.Amount) ∧
    (∀ e ∈ (runCalls NewInMemoryStorage calls).byID.entries,
      e.1 = e.2.ID ∧
      (e.2.Processor = "default" ∨ e.2.Processor = "fallback" ∨ e.2.Processor = "failed") ∧
      (e.2.Success = true ↔ (e.2.Processor = "default" ∨ e.2.Processor = "fallback")) ∧
      ∃ c ∈ calls, c.req.CorrelationID = e.2.CorrelationID ∧ c.req.Amount = e.2.Amount) := by
  have hempty : LedgerOK [] NewInMemoryStorage :=
    ⟨fun e he => absurd he (List.not_mem_nil e), fun e he => absurd he (List.not_mem_nil e)⟩
  have h := ledgerOK_runCalls calls [] NewInMemoryStorage hempty
  rw [List.nil_append] at h
  have hcall : ∀ r : PaymentRecord,
      (∃ q ∈ calls.map Call.req, q.CorrelationID = r.CorrelationID ∧ q.Amount = r.Amount) →
      ∃ c ∈ calls, c.req.CorrelationID = r.CorrelationID ∧ c.req.Amount = r.Amount := by
    rintro r ⟨q, hq, h1, h2⟩
    obtain ⟨c, hc, rfl⟩ := List.mem_map.1 hq
    exact ⟨c, hc, h1, h2⟩
  constructor
  · intro e he
    obtain ⟨hk, hp, hs, hq⟩ := h.1 e he
    exact ⟨hk, hp, hs, hcall _ hq⟩
  · intro e he
    obtain ⟨hk, hp, hs, hq⟩ := h.2 e he
    exact ⟨hk, hp, hs, hcall _ hq⟩

/-- The record left for "b" by `sampleCalls` is the terminal failure of the second call. -/
theorem C17_outcome_invariant_witness :
    (("b", { ID := 2, CorrelationID := "b", Amount := 7, Processor := "failed",
             ProcessedAt := 20, Success := false }) :
        String × PaymentRecord) ∈ (runCalls NewInMemoryStorage sampleCalls).payments.entries ∧
    ∃ c ∈ sampleCalls, c.req.CorrelationID = "b" ∧ c.req.Amount = 7 :=
  ⟨by decide, ((C17_outcome_invariant sampleCalls).1
    ("b", { ID := 2, CorrelationID := "b", Amount := 7, Processor := "failed",
            ProcessedAt := 20, Success := false }) (by decide)).2.2.2⟩

theorem GoMap.len_set_of_get_none {K V : Type} [DecidableEq K] (m : GoMap K V) (k : K) (v : V)
    (h : m.get k = none) : (m.set k v).len = m.len + 1 := by
  simp [GoMap.len, GoMap.set, GoMap.dropKey_of_get_none m k h]

theorem indexesAgree_StorePayment (st : InMemoryStorage) (r : PaymentRecord)
    (h : IndexesAgree st)
    (hc : st.payments.get r.CorrelationID = none) (hi : st.byID.get r.ID = none) :
    IndexesAgree (st.StorePayment r) := by
  obtain ⟨h1, h2, h3⟩ := h
  refine ⟨?_, ?_, ?_⟩
  · intro k r' hk
    by_cases hkc : k = r.CorrelationID
    · subst hkc
      have hr : r' = r := by
        have := GoMap.get_set_self st.payments r.CorrelationID r
        exact (Option.some.inj (hk.symm.trans this))
      subst hr
      exact ⟨rfl, GoMap.get_set_self _ _ _⟩
    · have hk' : st.payments.get k = some r' := by
        rw [← GoMap.get_set_ne st.payments r.CorrelationID k r hkc]; exact hk
      obtain ⟨hck, hid⟩ := h1 k r' hk'
      have hne : r'.ID ≠ r.ID := fun he => by rw [he, hi] at hid; exact Option.noConfusion hid
      exact ⟨hck, by
        show (st.byID.set r.ID r).get r'.ID = some r'
        rw [GoMap.get_set_ne _ _ _ _ hne]; exact hid⟩
  · intro i r' hk
    by_cases hir : i = r.ID
    · subst hir
      have hr : r' = r := by
        have := GoMap.get_set_self st.byID r.ID r
        exact (Option.some.inj (hk.symm.trans this))
      subst hr
      exact ⟨rfl, GoMap.get_set_self _ _ _⟩
    · have hk' : st.byID.get i = some r' := by
        rw [← GoMap.get_set_ne st.byID r.ID i r hir]; exact hk
      obtain ⟨hidi, hcor⟩ := h2 i r' hk'
      have hne : r'.CorrelationID ≠ r.CorrelationID := fun he => by
        rw [he, hc] at hcor; exact Option.noConfusion hcor
      exact ⟨hidi, by
        show (st.payments.set r.CorrelationID r).get r'.CorrelationID = some r'
        rw [GoMap.get_set_ne _ _ _ _ hne]; exact hcor⟩
  · show (st.payments.set r.CorrelationID r).len = (st.byID.set r.ID r).len
    rw [GoMap.len_set_of_get_none _ _ _ hc, GoMap.len_set_of_get_none _ _ _ hi, h3]

theorem indexesAgree_runCalls (cs : List Call) :
    ∀ st : InMemoryStorage, IndexesAgree st →
      (∀ i ∈ generatedIDs st cs, st.byID.get i = none) →
      (generatedIDs st cs).Nodup → IndexesAgree (runCalls st cs) := by
  induction cs with
  | nil => intro st h _ _; exact h
  | cons c cs ih =>
    intro st h hnew hnd
    cases hget : st.GetPaymentByCorrelationID c.req.CorrelationID with
    | some r0 =>
      have hgen : generatedIDs st (c :: cs) = generatedIDs (c.run st) cs := by
        simp only [generatedIDs, hget]
      rw [hgen] at hnew hnd
      have hrun := Call.run_hit c st r0 hget
      rw [hrun] at hnew hnd
      show IndexesAgree (runCalls (c.run st) cs)
      rw [hrun]
      exact ih st h hnew hnd
    | none =>
      have hgen : generatedIDs st (c :: cs) = c.world.newID :: generatedIDs (c.run st) cs := by
        simp only [generatedIDs, hget]
      rw [hgen] at hnew hnd
      obtain ⟨r, e, ⟨hid, hcor, _⟩, hrun⟩ := Call.run_fresh c st hget
      rw [List.nodup_cons] at hnd
      have hi : st.byID.get r.ID = none := by
        rw [hid]; exact hnew _ (List.mem_cons_self _ _)
      have hc : st.payments.get r.CorrelationID = none := by
        rw [hcor]; exact hget
      show IndexesAgree (runCalls (c.run st) cs)
      refine ih (c.run st) (by rw [hrun]; exact indexesAgree_StorePayment st r h hc hi) ?_ hnd.2
      intro i hmem
      have hne : i ≠ r.ID := fun he => hnd.1 (by rw [← hid, ← he]; exact hmem)
      rw [hrun]
      show (st.byID.set r.ID r).get i = none
      rw [GoMap.get_set_ne _ _ _ _ hne]
      exact hnew i (List.mem_cons_of_mem _ hmem)

/-- C18: in the ledger reached from the empty ledger by any sequence of sequential
`ProcessPayment` calls in which the generated ids are pairwise distinct, the two indexes
hold the same records: a record found under a correlationId has that correlationId and is
found under its id, a record found under an id has that id and is found under its
correlationId, and the two indexes have the same number of entries. -/
theorem C18_index_consistency (calls : List Call)
    (hids : (generatedIDs NewInMemoryStorage calls).Nodup) :
    (∀ k r, (runCalls NewInMemoryStorage calls).payments.get k = some r →
      r.CorrelationID = k ∧ (runCalls NewInMemoryStorage calls).byID.get r.ID = some r) ∧
    (∀ i r, (runCalls NewInMemoryStorage calls).byID.get i = some r →
      r.ID = i ∧ (runCalls NewInMemoryStorage calls).payments.get r.CorrelationID = some r) ∧
    (runCalls NewInMemoryStorage calls).payments.len =
      (runCalls NewInMemoryStorage calls).byID.len := by
  have hempty : IndexesAgree NewInMemoryStorage :=
    ⟨fun k r h => by simp [NewInMemoryStorage, GoMap.get, GoMap.empty] at h,
     fun i r h => by simp [NewInMemoryStorage, GoMap.get, GoMap.empty] at h, rfl⟩
  exact indexesAgree_runCalls calls NewInMemoryStorage hempty
    (fun i _ => by simp [NewInMemoryStorage, GoMap.get, GoMap.empty]) hids

theorem C18_index_consistency_witness :
    (generatedIDs NewInMemoryStorage sampleCalls).Nodup ∧
    (runCalls NewInMemoryStorage sampleCalls).payments.len = 2 ∧
    (runCalls NewInMemoryStorage sampleCalls).payments.len =
      (runCalls NewInMemoryStorage sampleCalls).byID.len :=
  ⟨by decide, by decide, (C18_index_consistency sampleCalls (by decide)).2.2⟩

end PaymentProcessor
